import Mathlib

/-!
# Scor: chunked speech-to-text pipeline

A shallow embedding of `src/src/speechToText.js`, of `sanitizeFilename` and
`saveTranscription` of `src/src/utils.js`, of the three entry points of
`src/src/transcriber.js` and of the error handling of `getVideoInfo` of
`src/src/downloader.js`.

The program is asynchronous but strictly sequential (every promise is awaited
before the next statement runs), so each function is embedded as a pure function
from the file system it starts in to a `Run`: the value returned or the error
thrown, the file system it leaves behind, and the ordered list of external
actions it performed. The behaviour of the outside world (environment
variables, the `path` module, ffprobe, ffmpeg and the HTTP endpoint) is a
parameter, `Env` (and `Host` around it for the entry points). Console output is
not recorded. JavaScript numbers are embedded as exact rationals, and the
strings that `sanitizeFilename` works on as lists of UTF-16 code units.
-/

namespace Scor

/-! ## JavaScript values and errors -/

/-- A thrown JavaScript error: the name of its constructor and its message. -/
structure JsError where
  name : String
  message : String
  deriving DecidableEq, Repr

/-- A JavaScript value as far as this program observes one. The program reads
members of parsed JSON bodies, tests values for truthiness and converts them to
strings; `prim` stands for a boolean, a number or an array, given by its
truthiness and by the outcome of its string conversion (that of an array
converts the elements, and throws when the conversion of an element does). -/
inductive JsVal where
  | undefined
  | null
  | str (s : String)
  | prim (truthy : Bool) (shown : Except JsError String)
  | obj (fields : List (String × JsVal))

namespace JsVal

/-- The error of reading a member of `null` or `undefined`. -/
def nullishRead (v key : String) : JsError :=
  ⟨"TypeError", "Cannot read properties of " ++ v ++ " (reading \x27" ++ key ++ "\x27)"⟩

/-- Member access `v.key`. Only the keys `error`, `message` and `text` are ever
read, and no string, boolean, number or array has a member of such a name. -/
def getProp (v : JsVal) (key : String) : Except JsError JsVal :=
  match v with
  | .undefined => .error (nullishRead "undefined" key)
  | .null => .error (nullishRead "null" key)
  | .obj fields => .ok ((fields.lookup key).getD .undefined)
  | .str _ => .ok .undefined
  | .prim _ _ => .ok .undefined

/-- Optional member access `v?.key`. -/
def getPropOpt (v : JsVal) (key : String) : Except JsError JsVal :=
  match v with
  | .undefined => .ok .undefined
  | .null => .ok .undefined
  | w => w.getProp key

/-- JavaScript truthiness. -/
def truthy : JsVal → Bool
  | .undefined => false
  | .null => false
  | .str s => s ≠ ""
  | .prim t _ => t
  | .obj _ => true

/-- The operator `a || b`. -/
def orElse (a b : JsVal) : JsVal :=
  if a.truthy then a else b

/-- String conversion, as done by a template literal. A parsed JSON object is
converted by the inherited `Object.prototype.toString`, whatever its other
members are, unless a member of its own is named `toString`: such a member is
not callable, `valueOf` yields no primitive either, and the conversion
throws. -/
def toStr : JsVal → Except JsError String
  | .undefined => .ok "undefined"
  | .null => .ok "null"
  | .str s => .ok s
  | .prim _ shown => shown
  | .obj fields =>
    if (fields.lookup "toString").isSome then
      .error ⟨"TypeError", "Cannot convert object to primitive value"⟩
    else .ok "[object Object]"

/-- The string an array element contributes to `Array.prototype.join`. -/
def joinPiece : JsVal → Except JsError String
  | .undefined => .ok ""
  | .null => .ok ""
  | v => v.toStr

end JsVal

/-- The pieces of `Array.prototype.join`, one per element, in order. -/
def joinPieces : List JsVal → Except JsError (List String)
  | [] => .ok []
  | v :: vs =>
    match v.joinPiece with
    | .error e => .error e
    | .ok s =>
      match joinPieces vs with
      | .error e => .error e
      | .ok ss => .ok (s :: ss)

/-- The call `xs.join(sep)`. -/
def arrayJoin (sep : String) (xs : List JsVal) : Except JsError String :=
  match joinPieces xs with
  | .error e => .error e
  | .ok ss => .ok (sep.intercalate ss)

/-! ## The outside world -/

/-- The file system: the size in bytes of every file that exists. -/
abbrev Files := String → Option Nat

/-- The file system after a file of the given size is written at a path. -/
def Files.write (files : Files) (path : String) (size : Nat) : Files :=
  fun q => if q = path then some size else files q

/-- The file system after the file at a path is removed. -/
def Files.remove (files : Files) (path : String) : Files :=
  fun q => if q = path then none else files q

/-- An external action of the program. An action is recorded when it is
attempted, whether it then succeeds or fails. -/
inductive Event where
  | stat (path : String)
  | readFile (path : String)
  | unlink (path : String)
  | probe (path : String)
  | extract (input output : String) (startTime duration : ℚ)
  | post (url apiKey model file : String)
  | writeFile (path : String)
  deriving DecidableEq

/-- The outcome of a run: what was returned or thrown, the file system left
behind and the external actions performed, oldest first. -/
structure Run (α : Type) where
  result : Except JsError α
  files : Files
  events : List Event

namespace Run

/-- A run that returns at once. -/
def pure {α : Type} (a : α) (files : Files) : Run α :=
  ⟨.ok a, files, []⟩

/-- Sequencing of awaited steps: a thrown error skips the continuation. -/
def andThen {α β : Type} (r : Run α) (k : α → Files → Run β) : Run β :=
  match r.result with
  | .error e => ⟨.error e, r.files, r.events⟩
  | .ok a => ⟨(k a r.files).result, (k a r.files).files, r.events ++ (k a r.files).events⟩

/-- The same run with its returned value transformed. -/
def map {α β : Type} (f : α → β) (r : Run α) : Run β :=
  ⟨r.result.map f, r.files, r.events⟩

end Run

/-- An HTTP response of the transcription endpoint. The body is the outcome of
`response.json()`: the parsed value, or the error thrown for a body that is not
valid JSON. -/
structure Response where
  status : Nat
  statusText : String
  body : Except JsError JsVal

/-- The flag `response.ok`: the status is in the range 200 to 299. -/
def Response.ok (r : Response) : Bool :=
  decide (200 ≤ r.status) && decide (r.status ≤ 299)

/-- The outcome of an ffmpeg extraction: the `end` event with the size of the
file written, or the `error` event with whatever file was left behind. -/
inductive ExtractOutcome where
  | done (size : Nat)
  | failed (e : JsError) (left : Option Nat)

/-- The functions of the Node `path` module that the program calls. -/
structure PathModule where
  dirname : String → String
  basename : String → String → String
  extname : String → String
  join : String → String → String

/-- The outside world: the environment variables read, the `path` module, and
the behaviour of ffprobe, ffmpeg, the HTTP endpoint and the unlink system call.
The probe fails or reports a numeric duration in seconds. The endpoint is asked
with the URL, the bearer key, the model and the path of the uploaded file. The
field `unlink` tells, for a file that exists, whether unlinking it removes it
(`none`) or throws (an error such as `EPERM` or `EBUSY`) and leaves it. -/
structure Env where
  GROQ_API_KEY : Option String
  OPENAI_API_KEY : Option String
  DEBUG : Option String
  path : PathModule
  ffprobe : String → Except JsError ℚ
  ffmpeg : String → String → ℚ → ℚ → ExtractOutcome
  fetch : String → String → String → String → Except JsError Response
  unlink : String → Option JsError

/-- The error of a file system call on a missing file. -/
def enoent (syscall path : String) : JsError :=
  ⟨"Error", "ENOENT: no such file or directory, " ++ syscall ++ " \x27" ++ path ++ "\x27"⟩

/-- The call `fs.statSync(path)`, returning `stats.size`. -/
def statSync (files : Files) (path : String) : Run Nat :=
  match files path with
  | some size => ⟨.ok size, files, [.stat path]⟩
  | none => ⟨.error (enoent "stat" path), files, [.stat path]⟩

/-- The call `fs.readFileSync(path)`; the bytes read are not modelled. -/
def readFileSync (files : Files) (path : String) : Run Unit :=
  match files path with
  | some _ => ⟨.ok (), files, [.readFile path]⟩
  | none => ⟨.error (enoent "open" path), files, [.readFile path]⟩

/-- The call `fs.unlinkSync(path)`: it throws on a missing file, and on a file
that exists it removes the file or throws and leaves it, as the world has
it. -/
def unlinkSync (env : Env) (files : Files) (path : String) : Run Unit :=
  match files path with
  | none => ⟨.error (enoent "unlink" path), files, [.unlink path]⟩
  | some _ =>
    match env.unlink path with
    | some e => ⟨.error e, files, [.unlink path]⟩
    | none => ⟨.ok (), files.remove path, [.unlink path]⟩

/-! ## speechToText.js -/

/-- The constant `MAX_FILE_SIZE`. -/
def MAX_FILE_SIZE : Nat := 25 * 1024 * 1024

/-- A provider configuration. -/
structure Provider where
  name : String
  apiKey : String
  url : String
  model : String
  deriving DecidableEq, Repr

/-- The error thrown by `getProvider` when no key is configured. -/
def noApiKey : JsError :=
  ⟨"Error", "Nessuna API key configurata. Imposta GROQ_API_KEY o OPENAI_API_KEY nel file .env"⟩

/-- An environment variable as an `if` condition sees it: set and not empty. -/
def envTruthy : Option String → Bool
  | some s => s ≠ ""
  | none => false

/-- The function `getProvider`. -/
def getProvider (env : Env) : Except JsError Provider :=
  if envTruthy env.GROQ_API_KEY then
    .ok { name := "Groq"
          apiKey := env.GROQ_API_KEY.getD ""
          url := "https://api.groq.com/openai/v1/audio/transcriptions"
          model := "whisper-large-v3" }
  else if envTruthy env.OPENAI_API_KEY then
    .ok { name := "OpenAI"
          apiKey := env.OPENAI_API_KEY.getD ""
          url := "https://api.openai.com/v1/audio/transcriptions"
          model := "whisper-1" }
  else .error noApiKey

/-- The part of `transcribeChunk` after the response has arrived: a response
that is not ok becomes an `HTTP` error, an ok response yields `data.text`. -/
def handleResponse (response : Response) : Except JsError JsVal :=
  if response.ok then
    match response.body with
    | .error e => .error e
    | .ok data => data.getProp "text"
  else
    let errorData : JsVal :=
      match response.body with
      | .ok v => v
      | .error _ => .obj []
    match errorData.getProp "error" with
    | .error e => .error e
    | .ok err =>
      match err.getPropOpt "message" with
      | .error e => .error e
      | .ok msg =>
        match (msg.orElse (.str response.statusText)).toStr with
        | .error e => .error e
        | .ok m => .error ⟨"Error", "HTTP " ++ toString response.status ++ ": " ++ m⟩

/-- The request sent by `transcribeChunk`. -/
def postAudio (env : Env) (provider : Provider) (files : Files) (audioPath : String) :
    Run Response :=
  ⟨env.fetch provider.url provider.apiKey provider.model audioPath, files,
    [.post provider.url provider.apiKey provider.model audioPath]⟩

/-- The function `transcribeChunk`. The provider is resolved, and in debug mode
the file is stat-ed, before the `try` block; the `catch` block logs the error
and throws it again, so an error raised inside the block leaves the function as
it was raised. -/
def transcribeChunk (env : Env) (files : Files) (audioPath : String) : Run JsVal :=
  match getProvider env with
  | .error e => ⟨.error e, files, []⟩
  | .ok provider =>
    (if env.DEBUG = some "true" then (statSync files audioPath).map (fun _ => ())
      else Run.pure () files).andThen fun _ files =>
    (readFileSync files audioPath).andThen fun _ files =>
    (postAudio env provider files audioPath).andThen fun response files =>
      ⟨handleResponse response, files, []⟩

/-- The function `getAudioDuration`. -/
def getAudioDuration (env : Env) (files : Files) (audioPath : String) : Run ℚ :=
  ⟨env.ffprobe audioPath, files, [.probe audioPath]⟩

/-- The function `extractAudioChunk`. -/
def extractAudioChunk (env : Env) (files : Files) (inputPath outputPath : String)
    (startTime duration : ℚ) : Run Unit :=
  match env.ffmpeg inputPath outputPath startTime duration with
  | .done size =>
    ⟨.ok (), files.write outputPath size, [.extract inputPath outputPath startTime duration]⟩
  | .failed e left =>
    ⟨.error e, (match left with | some size => files.write outputPath size | none => files),
      [.extract inputPath outputPath startTime duration]⟩

/-- The constant `chunkDuration` of `transcribeLargeAudio`. -/
def chunkDuration : ℚ := 600

/-- The value of `chunkPath` in iteration `i` of `transcribeLargeAudio`. -/
def chunkPath (env : Env) (audioPath : String) (i : Nat) : String :=
  env.path.join (env.path.dirname audioPath)
    (env.path.basename audioPath (env.path.extname audioPath) ++ "_chunk_" ++ toString i ++ ".mp3")

/-- The body of the loop of `transcribeLargeAudio` for index `i`: extract the
chunk, transcribe it, delete it; the value is the text pushed. -/
def chunkStep (env : Env) (audioPath : String) (i : Nat) (files : Files) : Run JsVal :=
  (extractAudioChunk env files audioPath (chunkPath env audioPath i)
      ((i : ℚ) * chunkDuration) chunkDuration).andThen fun _ files =>
  (transcribeChunk env files (chunkPath env audioPath i)).andThen fun text files =>
  (unlinkSync env files (chunkPath env audioPath i)).andThen fun _ files =>
    Run.pure text files

/-- The loop `for (let i = 0; i < numChunks; i++)` of `transcribeLargeAudio`,
entered at index `i` with `remaining` iterations to go and the array
`transcriptions` collected so far. -/
def chunkLoop (env : Env) (audioPath : String) :
    Nat → Nat → List JsVal → Files → Run (List JsVal)
  | 0, _, transcriptions, files => Run.pure transcriptions files
  | remaining + 1, i, transcriptions, files =>
    (chunkStep env audioPath i files).andThen fun text files =>
      chunkLoop env audioPath remaining (i + 1) (transcriptions ++ [text]) files

/-- The value of `numChunks` for a probed duration. -/
def numChunks (duration : ℚ) : ℤ :=
  ⌈duration / chunkDuration⌉

/-- The function `transcribeLargeAudio`. The loop runs while `i < numChunks`,
that is `numChunks.toNat` times from index 0. -/
def transcribeLargeAudio (env : Env) (files : Files) (audioPath : String) : Run String :=
  (getAudioDuration env files audioPath).andThen fun duration files =>
  (chunkLoop env audioPath (numChunks duration).toNat 0 [] files).andThen
    fun transcriptions files =>
      ⟨arrayJoin " " transcriptions, files, []⟩

/-- The function `transcribeAudio`. -/
def transcribeAudio (env : Env) (files : Files) (audioPath : String) : Run JsVal :=
  (statSync files audioPath).andThen fun size files =>
    if size > MAX_FILE_SIZE then (transcribeLargeAudio env files audioPath).map JsVal.str
    else transcribeChunk env files audioPath


/-! ## Reading a trace -/

/-- The time ranges (start, length) requested from the segment extractor, in
the order of the requests. -/
def extractRequests : List Event → List (ℚ × ℚ)
  | [] => []
  | .extract _ _ startTime duration :: evs => (startTime, duration) :: extractRequests evs
  | _ :: evs => extractRequests evs

/-- The files uploaded to the transcription endpoint, in the order of the
requests. -/
def uploads : List Event → List String
  | [] => []
  | .post _ _ _ file :: evs => file :: uploads evs
  | _ :: evs => uploads evs

/-- The action is a duration probe or a segment extraction. -/
def Event.isMediaWork : Event → Bool
  | .probe _ => true
  | .extract _ _ _ _ => true
  | _ => false

/-- The action reads the contents of a file or sends a request. -/
def Event.isReadOrPost : Event → Bool
  | .readFile _ => true
  | .post _ _ _ _ => true
  | _ => false

/-! ## What the outside world does for a segment -/

/-- The extraction into the file of segment `i` ends well, whatever time range
is asked for. -/
def ExtractOk (env : Env) (audioPath : String) (i : Nat) : Prop :=
  ∀ s d, ∃ size, env.ffmpeg audioPath (chunkPath env audioPath i) s d = .done size

/-- The extraction into the file of segment `i` fails with `e`, whatever time
range is asked for. -/
def ExtractFails (env : Env) (audioPath : String) (i : Nat) (e : JsError) : Prop :=
  ∀ s d, ∃ left, env.ffmpeg audioPath (chunkPath env audioPath i) s d = .failed e left

/-- A key is configured and the upload of the file of segment `i` is answered
with a response from which `transcribeChunk` returns `v`. -/
def TranscribeOk (env : Env) (audioPath : String) (i : Nat) (v : JsVal) : Prop :=
  ∃ p resp, getProvider env = .ok p ∧
    env.fetch p.url p.apiKey p.model (chunkPath env audioPath i) = .ok resp ∧
    handleResponse resp = .ok v

/-- The transcription of the file of segment `i` fails with `e`: no key is
configured, or the request fails, or the response makes `transcribeChunk`
throw. -/
def TranscribeFails (env : Env) (audioPath : String) (i : Nat) (e : JsError) : Prop :=
  getProvider env = .error e ∨
  ∃ p, getProvider env = .ok p ∧
    (env.fetch p.url p.apiKey p.model (chunkPath env audioPath i) = .error e ∨
     ∃ resp, env.fetch p.url p.apiKey p.model (chunkPath env audioPath i) = .ok resp ∧
       handleResponse resp = .error e)

/-- The unlink of the file of segment `i` does not throw. -/
def UnlinkOk (env : Env) (audioPath : String) (i : Nat) : Prop :=
  env.unlink (chunkPath env audioPath i) = none

/-- Segment `i` is processed successfully, with text `v`: it is extracted and
transcribed and its file is unlinked without an error. -/
def SegmentOk (env : Env) (audioPath : String) (i : Nat) (v : JsVal) : Prop :=
  ExtractOk env audioPath i ∧ TranscribeOk env audioPath i v ∧ UnlinkOk env audioPath i

/-- Extraction or transcription of segment `i` fails with `e`. -/
def SegmentFails (env : Env) (audioPath : String) (i : Nat) (e : JsError) : Prop :=
  ExtractFails env audioPath i e ∨ (ExtractOk env audioPath i ∧ TranscribeFails env audioPath i e)

/-- The request that `transcribeChunk` sends for a file, if a key is
configured. -/
def postEvents (env : Env) (file : String) : List Event :=
  match getProvider env with
  | .ok p => [.post p.url p.apiKey p.model file]
  | .error _ => []

/-- The external actions of one successful pass through the loop body:
extract, (in debug mode, stat,) read, post, unlink. -/
def stepEvents (env : Env) (audioPath : String) (i : Nat) : List Event :=
  [.extract audioPath (chunkPath env audioPath i) ((i : ℚ) * chunkDuration) chunkDuration] ++
    (if env.DEBUG = some "true" then [.stat (chunkPath env audioPath i)] else []) ++
    [.readFile (chunkPath env audioPath i)] ++
    postEvents env (chunkPath env audioPath i) ++
    [.unlink (chunkPath env audioPath i)]

/-- The external actions of `n` successful passes starting at index `i`. -/
def loopEvents (env : Env) (audioPath : String) : Nat → Nat → List Event
  | 0, _ => []
  | n + 1, i => stepEvents env audioPath i ++ loopEvents env audioPath n (i + 1)

/-! ## Sample worlds -/

/-- The `path` module as it acts on the path `/tmp/talk.mp3`. -/
def talkPath : PathModule :=
  { dirname := fun _ => "/tmp"
    basename := fun _ _ => "talk"
    extname := fun _ => ".mp3"
    join := fun dir name => dir ++ "/" ++ name }

/-- A success response with the given text. -/
def okResponse (text : String) : Response :=
  ⟨200, "OK", .ok (.obj [("text", .str text)])⟩

/-- The texts of the four segments of the sample file. -/
def talkText (i : Nat) : String :=
  if i = 0 then "a" else if i = 1 then "b" else if i = 2 then "c" else "d"

/-- A world with a Groq key where `/tmp/talk.mp3` lasts 2100 seconds, every
extraction ends well and the four segments are transcribed as a, b, c, d. -/
def talkEnv : Env :=
  { GROQ_API_KEY := some "gsk_test"
    OPENAI_API_KEY := none
    DEBUG := none
    path := talkPath
    ffprobe := fun _ => .ok 2100
    ffmpeg := fun _ _ _ _ => .done 9600000
    fetch := fun _ _ _ file =>
      if file = "/tmp/talk_chunk_0.mp3" then .ok (okResponse "a")
      else if file = "/tmp/talk_chunk_1.mp3" then .ok (okResponse "b")
      else if file = "/tmp/talk_chunk_2.mp3" then .ok (okResponse "c")
      else .ok (okResponse "d")
    unlink := fun _ => none }

/-- A file system holding only `/tmp/talk.mp3`, of 33600000 bytes. -/
def talkFiles : Files :=
  fun p => if p = "/tmp/talk.mp3" then some 33600000 else none

/-- A file system holding a single file of the given size. -/
def singleFile (path : String) (size : Nat) : Files :=
  fun p => if p = path then some size else none

/-- A failure response of the endpoint with a provider message. -/
def overloaded : Response :=
  ⟨503, "Service Unavailable", .ok (.obj [("error", .obj [("message", .str "overloaded")])])⟩

/-- A world with a Groq key where `/tmp/talk.mp3` lasts 1500 seconds (three
segments), every extraction ends well, and the upload of the second segment is
answered with status 503. -/
def failEnv : Env :=
  { GROQ_API_KEY := some "gsk_test"
    OPENAI_API_KEY := none
    DEBUG := none
    path := talkPath
    ffprobe := fun _ => .ok 1500
    ffmpeg := fun _ _ _ _ => .done 9600000
    fetch := fun _ _ _ file =>
      if file = "/tmp/talk_chunk_1.mp3" then .ok overloaded
      else .ok (okResponse "a")
    unlink := fun _ => none }

/-- The sample world with both keys configured. -/
def bothKeysEnv : Env :=
  { talkEnv with OPENAI_API_KEY := some "sk_test" }

/-- The sample world with only the OpenAI key configured, the Groq key being
set to the empty string. -/
def openAiEnv : Env :=
  { talkEnv with GROQ_API_KEY := some "", OPENAI_API_KEY := some "sk_test" }

/-- The sample world with no key configured. -/
def noKeyEnv : Env :=
  { talkEnv with GROQ_API_KEY := none, OPENAI_API_KEY := none }

/-- A world whose endpoint answers with status 200 and a body that is not
JSON. -/
def htmlEnv : Env :=
  { talkEnv with
    fetch := fun _ _ _ _ =>
      .ok ⟨200, "OK", .error ⟨"SyntaxError", "Unexpected token < in JSON at position 0"⟩⟩ }

/-- A world whose endpoint answers with status 500 and the JSON body `null`. -/
def nullBodyEnv : Env :=
  { talkEnv with
    fetch := fun _ _ _ _ => .ok ⟨500, "Internal Server Error", .ok .null⟩ }

/-- A world whose endpoint answers every upload with status 503 and a provider
message. -/
def overloadedEnv : Env :=
  { talkEnv with fetch := fun _ _ _ _ => .ok overloaded }

/-- A world whose endpoint answers with status 200 and the JSON body `null`. -/
def nullOkEnv : Env :=
  { talkEnv with fetch := fun _ _ _ _ => .ok ⟨200, "OK", .ok .null⟩ }

/-- A world whose endpoint answers with status 400 and a body whose
`error.message` is an object with a member named `toString`. -/
def oddMessageEnv : Env :=
  { talkEnv with
    fetch := fun _ _ _ _ =>
      .ok ⟨400, "Bad Request",
        .ok (.obj [("error", .obj [("message", .obj [("toString", .prim true (.ok "1"))])])])⟩ }

/-- A world whose endpoint answers with status 429 and a body whose `error`
member is a string. -/
def quotaEnv : Env :=
  { talkEnv with
    fetch := fun _ _ _ _ => .ok ⟨429, "Too Many Requests", .ok (.obj [("error", .str "quota")])⟩ }

/-- A world whose endpoint answers with status 400 and a body whose
`error.message` is the number 42. -/
def numberMessageEnv : Env :=
  { talkEnv with
    fetch := fun _ _ _ _ =>
      .ok ⟨400, "Bad Request",
        .ok (.obj [("error", .obj [("message", .prim true (.ok "42"))])])⟩ }

/-- The provider-supplied `error.message` of a JSON body other than `null`: the
`message` member of its `error` member, undefined when the body is not an
object, when it has no `error` member, when that member is not an object, or
when that object has no `message` member. -/
def providerMessage : JsVal → JsVal
  | .obj fields =>
    match fields.lookup "error" with
    | some (.obj efields) => (efields.lookup "message").getD .undefined
    | _ => .undefined
  | _ => .undefined

/-- The `text` member of a JSON body other than `null`: undefined when the body
is not an object or has no such member. -/
def bodyText : JsVal → JsVal
  | .obj fields => (fields.lookup "text").getD .undefined
  | _ => .undefined

/-! ## utils.js -/

/-- The UTF-16 code units of a character. -/
def utf16Char (c : Char) : List Nat :=
  if c.toNat < 65536 then [c.toNat]
  else [55296 + (c.toNat - 65536) / 1024, 56320 + (c.toNat - 65536) % 1024]

/-- A string as the methods of `String.prototype` see it: the list of its
UTF-16 code units. -/
def utf16 (s : String) : List Nat :=
  s.toList.flatMap utf16Char

/-- The code unit is matched by the class of the first regular expression of
`sanitizeFilename`: one of the characters `<` `>` `:` `"` `/` `\` `|` `?`
`*`. -/
def isInvalidUnit (c : Nat) : Bool :=
  decide (c ∈ [60, 62, 58, 34, 47, 92, 124, 63, 42])

/-- The code unit is matched by `\s`: the white space and line terminator
characters of the language. -/
def isSpaceUnit (c : Nat) : Bool :=
  decide (c ∈ [9, 10, 11, 12, 13, 32, 160, 5760, 8232, 8233, 8239, 8287, 12288, 65279]) ||
    (decide (8192 ≤ c) && decide (c ≤ 8202))

/-- The replacement `.replace(/\s+/g, "_")`: every maximal run of white space
becomes one underscore (code unit 95). The flag tells whether the previous code
unit was white space. -/
def underscoreRuns : Bool → List Nat → List Nat
  | _, [] => []
  | inRun, c :: cs =>
    if isSpaceUnit c then
      if inRun then underscoreRuns true cs else 95 :: underscoreRuns true cs
    else c :: underscoreRuns false cs

/-- The function `sanitizeFilename`. -/
def sanitizeFilename (filename : List Nat) : List Nat :=
  (underscoreRuns false (filename.filter fun c => !isInvalidUnit c)).take 100

/-- The value of `timestamp` in `saveTranscription`, from the value of
`new Date().toISOString()`: colons (58) and dots (46) become hyphens (45) and
the first 19 code units are kept. -/
def fileTimestamp (isoNow : List Nat) : List Nat :=
  (isoNow.map fun c => if c = 58 ∨ c = 46 then 45 else c).take 19

/-- The value of `filename` in `saveTranscription`. -/
def transcriptionFileName (isoNow title : List Nat) : List Nat :=
  sanitizeFilename title ++ utf16 "_" ++ fileTimestamp isoNow ++ utf16 ".txt"

/-- What the first part of `transcribeYouTube`, `transcribeDirectMedia` or
`transcribeLocalFile` hands to the rest of the function: the path of the audio
file made ready, `mediaInfo.title` (`none` when undefined), and for a YouTube
video the displayed duration and the path of the downloaded video, if any. -/
structure Prepared where
  audioPath : String
  title : Option (List Nat)
  duration : JsVal
  videoPath : Option String

/-- The outside world of `utils.js` and `transcriber.js`, around that of
`speechToText.js`: the flag variable `KEEP_AUDIO`, the value of
`new Date().toISOString()`, the path `path.join(PATHS.TRANSCRIPTION_PATH, name)`
of a file name, the outcome of `fs.writeFileSync` at a path (an error or the
size written), and the paths of the player scripts that `cleanupPlayerScripts`
finds. The steps of the three entry points that make the audio file ready
(fetching the video information, downloading, converting or copying) are taken
from the world as a whole: each ends with the audio file ready or throws. -/
structure Host where
  env : Env
  KEEP_AUDIO : Option String
  isoNow : List Nat
  transcriptionFile : List Nat → String
  writeFile : String → Except JsError Nat
  playerScripts : List String
  youtubeAudio : String → Files → Run Prepared
  directAudio : String → Files → Run Prepared
  localAudio : String → Files → Run Prepared

/-- The error of calling `replace` on a title that is not there. -/
def titleError : JsError :=
  ⟨"TypeError", "Cannot read properties of undefined (reading \x27replace\x27)"⟩

/-- The function `saveTranscription`, given the transcription and
`mediaInfo.title` (`none` when the title is undefined). The content written is
not modelled beyond the conversion of the transcription to a string. -/
def saveTranscription (host : Host) (files : Files) (transcription : JsVal)
    (title : Option (List Nat)) : Run String :=
  match title with
  | none => ⟨.error titleError, files, []⟩
  | some t =>
    match transcription.toStr with
    | .error e => ⟨.error e, files, []⟩
    | .ok _ =>
      match host.writeFile (host.transcriptionFile (transcriptionFileName host.isoNow t)) with
      | .error e =>
        ⟨.error e, files,
          [.writeFile (host.transcriptionFile (transcriptionFileName host.isoNow t))]⟩
      | .ok size =>
        ⟨.ok (host.transcriptionFile (transcriptionFileName host.isoNow t)),
          files.write (host.transcriptionFile (transcriptionFileName host.isoNow t)) size,
          [.writeFile (host.transcriptionFile (transcriptionFileName host.isoNow t))]⟩

/-- The result object of the three entry points of `transcriber.js`; an absent
field is `none`. -/
structure TranscriptionResult where
  outputPath : String
  duration : JsVal
  text : JsVal
  videoPath : Option String
  audioPath : Option String

/-- The block that handles the audio file at the end of the three entry
points: with `KEEP_AUDIO` set the file is kept, otherwise it is unlinked inside
a `try` whose `catch` is empty. -/
def removeTempAudio (host : Host) (files : Files) (audioPath : String) : Run Unit :=
  if host.KEEP_AUDIO = some "true" then Run.pure () files
  else
    ⟨.ok (), (unlinkSync host.env files audioPath).files,
      (unlinkSync host.env files audioPath).events⟩

/-- The loop of `cleanupPlayerScripts`: the scripts are unlinked in turn, up to
the first failure. -/
def unlinkAll (env : Env) : List String → Files → Run Unit
  | [], files => Run.pure () files
  | p :: ps, files => (unlinkSync env files p).andThen fun _ files => unlinkAll env ps files

/-- The function `cleanupPlayerScripts`; its `catch` is empty. -/
def cleanupPlayerScripts (host : Host) (files : Files) : Run Unit :=
  ⟨.ok (), (unlinkAll host.env host.playerScripts files).files,
    (unlinkAll host.env host.playerScripts files).events⟩

/-- The value of `result.audioPath`: set when the path is a non-empty string and
`KEEP_AUDIO` is on. -/
def keptAudio (host : Host) (audioPath : String) : Option String :=
  if host.KEEP_AUDIO = some "true" ∧ audioPath ≠ "" then some audioPath else none

/-- The function `transcribeYouTube`. The `catch` around `transcribeAudio` logs
the error and throws it again. -/
def transcribeYouTube (host : Host) (files : Files) (youtubeUrl : String) :
    Run TranscriptionResult :=
  (host.youtubeAudio youtubeUrl files).andThen fun prep files =>
  (transcribeAudio host.env files prep.audioPath).andThen fun transcription files =>
  (saveTranscription host files transcription prep.title).andThen fun outputPath files =>
  (removeTempAudio host files prep.audioPath).andThen fun _ files =>
  (cleanupPlayerScripts host files).andThen fun _ files =>
    Run.pure
      { outputPath := outputPath
        duration := prep.duration
        text := transcription
        videoPath := prep.videoPath.filter (fun v => v ≠ "")
        audioPath := keptAudio host prep.audioPath } files

/-- The function `transcribeDirectMedia`. The `catch` around `transcribeAudio`
logs the error and throws it again. -/
def transcribeDirectMedia (host : Host) (files : Files) (mediaUrl : String) :
    Run TranscriptionResult :=
  (host.directAudio mediaUrl files).andThen fun prep files =>
  (transcribeAudio host.env files prep.audioPath).andThen fun transcription files =>
  (saveTranscription host files transcription prep.title).andThen fun outputPath files =>
  (removeTempAudio host files prep.audioPath).andThen fun _ files =>
    Run.pure
      { outputPath := outputPath
        duration := .null
        text := transcription
        videoPath := none
        audioPath := keptAudio host prep.audioPath } files

/-- The function `transcribeLocalFile`. The `catch` around `transcribeAudio`
logs the error and throws it again. -/
def transcribeLocalFile (host : Host) (files : Files) (filePath : String) :
    Run TranscriptionResult :=
  (host.localAudio filePath files).andThen fun prep files =>
  (transcribeAudio host.env files prep.audioPath).andThen fun transcription files =>
  (saveTranscription host files transcription prep.title).andThen fun outputPath files =>
  (removeTempAudio host files prep.audioPath).andThen fun _ files =>
    Run.pure
      { outputPath := outputPath
        duration := .null
        text := transcription
        videoPath := none
        audioPath := keptAudio host prep.audioPath } files

/-- The action writes a file. -/
def Event.isWrite : Event → Bool
  | .writeFile _ => true
  | _ => false

/-- The first part of `transcribeLocalFile` for an `.mp3` file when the audio
directory is `/tmp`: the file is stat-ed and copied to `/tmp/talk.mp3`. -/
def copyToTmp (filePath : String) (files : Files) : Run Prepared :=
  match files filePath with
  | none => ⟨.error ⟨"Error", "File non trovato: " ++ filePath⟩, files, []⟩
  | some size =>
    ⟨.ok ⟨"/tmp/talk.mp3", some (utf16 "talk.mp3"), .null, none⟩,
      files.write "/tmp/talk.mp3" size, [.stat filePath, .writeFile "/tmp/talk.mp3"]⟩

/-- A host around the sample world: transcripts go to `/out`, the clock reads
2026-11-04T23:51:37.509Z, and audio is not kept. The output path is only
spelled out for the sample title. -/
def talkHost : Host :=
  { env := talkEnv
    KEEP_AUDIO := none
    isoNow := utf16 "2026-11-04T23:51:37.509Z"
    transcriptionFile := fun name =>
      if name = utf16 "My_Video!_2026-11-04T23-51-37.txt"
      then "/out/My_Video!_2026-11-04T23-51-37.txt" else "/out/transcript.txt"
    writeFile := fun _ => .ok 2048
    playerScripts := []
    youtubeAudio := copyToTmp
    directAudio := copyToTmp
    localAudio := copyToTmp }

/-- The sample host around the world whose second upload fails. -/
def failHost : Host :=
  { talkHost with env := failEnv }

/-- A file system holding only the local file `/home/me/talk.mp3`, of 33600000
bytes. -/
def homeFiles : Files :=
  singleFile "/home/me/talk.mp3" 33600000

/-- The sample host in a world where the unlink of the audio file
`/tmp/talk.mp3` throws `EPERM`. -/
def lockedHost : Host :=
  { talkHost with
    env :=
      { talkEnv with
        unlink := fun p =>
          if p = "/tmp/talk.mp3" then some ⟨"Error", "EPERM: operation not permitted, unlink"⟩
          else none } }

/-- The success path of an entry point `run` whose first part is `prepare`,
with audio retention off, `scripts` being the player scripts it cleans up
afterwards: when the audio is made ready, `transcribeAudio` returns `text` and
`saveTranscription` returns `out`, the call returns a result with that output
path and text and with no audio path, whatever the unlink of the audio file
does; that unlink is among its actions; if the unlink does not throw, the audio
file is not on disk afterwards; if the unlink of the existing audio file throws,
the file is still on disk afterwards. -/
def UnlinksAudioOnSuccess (host : Host) (scripts : List String) (prepare : Run Prepared)
    (run : Run TranscriptionResult) : Prop :=
  ∀ prep text out, prepare.result = .ok prep →
    (transcribeAudio host.env prepare.files prep.audioPath).result = .ok text →
    (saveTranscription host (transcribeAudio host.env prepare.files prep.audioPath).files
      text prep.title).result = .ok out →
    (∃ r, run.result = .ok r ∧ r.outputPath = out ∧ r.text = text ∧ r.audioPath = none) ∧
    .unlink prep.audioPath ∈ run.events ∧
    (host.env.unlink prep.audioPath = none → run.files prep.audioPath = none) ∧
    (∀ e size, host.env.unlink prep.audioPath = some e →
      (saveTranscription host (transcribeAudio host.env prepare.files prep.audioPath).files
        text prep.title).files prep.audioPath = some size →
      prep.audioPath ∉ scripts →
      run.files prep.audioPath = some size)

/-- The failure path of an entry point `run` whose first part is `prepare`:
when the audio is made ready and `transcribeAudio` fails with `e`, the call
fails with `e`, no action follows those of `transcribeAudio` (the audio file is
not unlinked by the entry point), and the file system is the one
`transcribeAudio` left. -/
def LeavesAudioOnFailure (host : Host) (prepare : Run Prepared)
    (run : Run TranscriptionResult) : Prop :=
  ∀ prep e, prepare.result = .ok prep →
    (transcribeAudio host.env prepare.files prep.audioPath).result = .error e →
    run.result = .error e ∧
    run.events = prepare.events ++
      (transcribeAudio host.env prepare.files prep.audioPath).events ∧
    run.files = (transcribeAudio host.env prepare.files prep.audioPath).files

/-- The sample world with a probe that reports the duration 0. -/
def zeroEnv : Env :=
  { talkEnv with ffprobe := fun _ => .ok 0 }

/-! ## downloader.js -/

/-- The text starts with the pattern. -/
def startsWithChars : List Char → List Char → Bool
  | [], _ => true
  | _ :: _, [] => false
  | p :: ps, c :: cs => p == c && startsWithChars ps cs

/-- The pattern occurs in the text. -/
def includesChars (pattern : List Char) : List Char → Bool
  | [] => startsWithChars pattern []
  | c :: cs => startsWithChars pattern (c :: cs) || includesChars pattern cs

/-- The call `s.includes(pattern)`. -/
def jsIncludes (s pattern : String) : Bool :=
  includesChars pattern.toList s.toList

/-- An error as the `catch` block of `getVideoInfo` reads it: its constructor
name, its message and its `stderr` member (`none` when undefined). -/
structure ExecError where
  name : String
  message : String
  stderr : Option String
  deriving DecidableEq, Repr

/-- The conversion `String(error)` of an error. -/
def ExecError.toStr (error : ExecError) : String :=
  if error.name = "" then error.message
  else if error.message = "" then error.name
  else error.name ++ ": " ++ error.message

/-- The value of `errorMsg` in the `catch` block of `getVideoInfo`:
`error.message || error.stderr || String(error)`. -/
def errorMsgOf (error : ExecError) : String :=
  if error.message ≠ "" then error.message
  else
    match error.stderr with
    | some s => if s ≠ "" then s else error.toStr
    | none => error.toStr

/-- The hint thrown for a message containing `not available`. -/
def unavailableHint : ExecError :=
  ⟨"Error", "Video non disponibile. Potrebbe essere privato, rimosso o geo-bloccato.", none⟩

/-- The hint thrown for a message containing `age`. -/
def ageHint : ExecError :=
  ⟨"Error", "Video con restrizioni di età. Prova ad accedere a YouTube nel browser.", none⟩

/-- The hint thrown for a message containing `private`. -/
def privateHint : ExecError :=
  ⟨"Error", "Video privato. Non è possibile scaricarlo.", none⟩

/-- The error thrown by the `catch` block of `getVideoInfo` for a caught
error. -/
def getVideoInfoCatch (error : ExecError) : ExecError :=
  if jsIncludes (errorMsgOf error) "not available" then unavailableHint
  else if jsIncludes (errorMsgOf error) "age" then ageHint
  else if jsIncludes (errorMsgOf error) "private" then privateHint
  else error

/-- The function `getVideoInfo`. Its `try` block (the call of youtube-dl and the
construction of the result from the JSON dump) is taken from the world as
`fetchInfo`: it returns the result object or throws. -/
def getVideoInfo {α : Type} (fetchInfo : String → Except ExecError α) (url : String) :
    Except ExecError α :=
  match fetchInfo url with
  | .ok info => .ok info
  | .error error => .error (getVideoInfoCatch error)

/-- The file name of segment `i`: the template
`${baseName}_chunk_${i}.mp3` of `transcribeLargeAudio`. -/
def chunkName (baseName : String) (i : Nat) : String :=
  baseName ++ "_chunk_" ++ toString i ++ ".mp3"

/-- The file system when pass `k` of the loop of `transcribeLargeAudio` begins:
the one the first `k` passes leave, the loop having started from `files`. -/
def passStart (env : Env) (audioPath : String) (files : Files) (k : Nat) : Files :=
  (chunkLoop env audioPath k 0 [] files).files

/-- The file system in pass `k` after `extractAudioChunk` has run. -/
def passExtracted (env : Env) (audioPath : String) (files : Files) (k : Nat) : Files :=
  (extractAudioChunk env (passStart env audioPath files k) audioPath
    (chunkPath env audioPath k) ((k : ℚ) * chunkDuration) chunkDuration).files

/-- The file system in pass `k` after `transcribeChunk` has run. -/
def passTranscribed (env : Env) (audioPath : String) (files : Files) (k : Nat) : Files :=
  (transcribeChunk env (passExtracted env audioPath files k) (chunkPath env audioPath k)).files

/-- The file system in pass `k` after `fs.unlinkSync(chunkPath)` has run. -/
def passUnlinked (env : Env) (audioPath : String) (files : Files) (k : Nat) : Files :=
  (unlinkSync env (passTranscribed env audioPath files k) (chunkPath env audioPath k)).files

/-- The effect of pass `k` on the file system, stage by stage. When the pass
begins the files of the segments before `k` are not on disk and every other
path holds what it held before the loop. The extraction puts the file of
segment `k` on disk and changes no other path; the transcription changes
nothing; the unlink removes the file of segment `k` and changes no other path.
The file system after the unlink is the one the loop body leaves, and the one
in which pass `k + 1` begins. -/
def PassKeepsOneFile (env : Env) (audioPath : String) (files : Files) (k : Nat) : Prop :=
  (∀ j, j < k → passStart env audioPath files k (chunkPath env audioPath j) = none) ∧
  (∀ q, (∀ j, j < k → q ≠ chunkPath env audioPath j) →
    passStart env audioPath files k q = files q) ∧
  passExtracted env audioPath files k (chunkPath env audioPath k) ≠ none ∧
  (∀ q, q ≠ chunkPath env audioPath k →
    passExtracted env audioPath files k q = passStart env audioPath files k q) ∧
  passTranscribed env audioPath files k = passExtracted env audioPath files k ∧
  passUnlinked env audioPath files k (chunkPath env audioPath k) = none ∧
  (∀ q, q ≠ chunkPath env audioPath k →
    passUnlinked env audioPath files k q = passStart env audioPath files k q) ∧
  (chunkStep env audioPath k (passStart env audioPath files k)).files =
    passUnlinked env audioPath files k ∧
  passStart env audioPath files (k + 1) = passUnlinked env audioPath files k

/-- In pass `k` of a loop of `n` passes the file of segment `k` is the only
segment file on disk: none is on disk when the pass begins, the file of segment
`k` and no other is on disk after the extraction and after the transcription,
and none is on disk after the unlink. -/
def OnlySegmentOnDisk (env : Env) (audioPath : String) (files : Files) (n k : Nat) : Prop :=
  (∀ j, j < n → passStart env audioPath files k (chunkPath env audioPath j) = none) ∧
  passExtracted env audioPath files k (chunkPath env audioPath k) ≠ none ∧
  passTranscribed env audioPath files k (chunkPath env audioPath k) ≠ none ∧
  (∀ j, j < n → chunkPath env audioPath j ≠ chunkPath env audioPath k →
    passExtracted env audioPath files k (chunkPath env audioPath j) = none ∧
    passTranscribed env audioPath files k (chunkPath env audioPath j) = none) ∧
  (∀ j, j < n → passUnlinked env audioPath files k (chunkPath env audioPath j) = none)

/-- The sample world at a time when the upload of the fourth segment is
answered with status 503. -/
def flakyEnv : Env :=
  { talkEnv with
    fetch := fun url key model file =>
      if file = "/tmp/talk_chunk_3.mp3" then .ok overloaded
      else talkEnv.fetch url key model file }

/-- The file system that the call of `transcribeLargeAudio` on the sample file
leaves in the world `flakyEnv`, where it fails at the fourth segment. -/
def staleFiles : Files :=
  (transcribeLargeAudio flakyEnv talkFiles "/tmp/talk.mp3").files

/-! ## Lemmas on sequencing -/

theorem Run.andThen_ok {α β : Type} {r : Run α} {a : α} (k : α → Files → Run β)
    (h : r.result = .ok a) :
    r.andThen k = ⟨(k a r.files).result, (k a r.files).files, r.events ++ (k a r.files).events⟩ := by
  simp [Run.andThen, h]

theorem Run.andThen_error {α β : Type} {r : Run α} {e : JsError} (k : α → Files → Run β)
    (h : r.result = .error e) :
    r.andThen k = ⟨.error e, r.files, r.events⟩ := by
  simp [Run.andThen, h]

/-! ## Lemmas on `transcribeChunk` -/

/-- Without a key `transcribeChunk` throws at once. -/
theorem transcribeChunk_noKey (env : Env) (files : Files) (cp : String) (e : JsError)
    (hp : getProvider env = .error e) :
    transcribeChunk env files cp = ⟨.error e, files, []⟩ := by
  unfold transcribeChunk
  rw [hp]

/-- With a key configured and the file present, `transcribeChunk` reads the
file, posts it and hands the response to `handleResponse`. -/
theorem transcribeChunk_present (env : Env) (files : Files) (cp : String) (p : Provider)
    (size : Nat) (hp : getProvider env = .ok p) (hfile : files cp = some size) :
    transcribeChunk env files cp =
      ⟨(match env.fetch p.url p.apiKey p.model cp with
          | .error e => .error e
          | .ok resp => handleResponse resp),
        files,
        (if env.DEBUG = some "true" then [.stat cp] else []) ++
          [.readFile cp, .post p.url p.apiKey p.model cp]⟩ := by
  unfold transcribeChunk
  rw [hp]
  by_cases hd : env.DEBUG = some "true"
  · cases hf : env.fetch p.url p.apiKey p.model cp <;>
      simp [hd, hf, statSync, readFileSync, postAudio, hfile, Run.andThen, Run.map, Run.pure,
        Except.map]
  · cases hf : env.fetch p.url p.apiKey p.model cp <;>
      simp [hd, hf, statSync, readFileSync, postAudio, hfile, Run.andThen, Run.map, Run.pure,
        Except.map]

/-- The function `transcribeChunk` never changes the file system. -/
theorem transcribeChunk_files (env : Env) (files : Files) (cp : String) :
    (transcribeChunk env files cp).files = files := by
  unfold transcribeChunk
  cases hp : getProvider env with
  | error e => rfl
  | ok p =>
    cases hfile : files cp <;> by_cases hd : env.DEBUG = some "true" <;>
      cases hf : env.fetch p.url p.apiKey p.model cp <;>
      simp [hd, hf, statSync, readFileSync, postAudio, hfile, Run.andThen, Run.map, Run.pure,
        Except.map]

/-- The function `transcribeChunk` probes nothing and extracts nothing, and it
uploads at most the file it was given, at most once. -/
theorem transcribeChunk_events (env : Env) (files : Files) (cp : String) :
    (∀ ev ∈ (transcribeChunk env files cp).events, ev.isMediaWork = false) ∧
    extractRequests (transcribeChunk env files cp).events = [] ∧
    (uploads (transcribeChunk env files cp).events = [] ∨
      uploads (transcribeChunk env files cp).events = [cp]) := by
  unfold transcribeChunk
  cases hp : getProvider env with
  | error e => simp [extractRequests, uploads]
  | ok p =>
    cases hfile : files cp <;> by_cases hd : env.DEBUG = some "true" <;>
      cases hf : env.fetch p.url p.apiKey p.model cp <;>
      simp [hd, hf, statSync, readFileSync, postAudio, hfile, Run.andThen, Run.map, Run.pure,
        Except.map, extractRequests, uploads, Event.isMediaWork]

/-! ## Lemmas on the loop -/

/-- One successful pass through the loop body. -/
theorem chunkStep_ok (env : Env) (audioPath : String) (i : Nat) (files : Files)
    (v : JsVal) (h : SegmentOk env audioPath i v) :
    (chunkStep env audioPath i files).result = .ok v ∧
    (chunkStep env audioPath i files).events = stepEvents env audioPath i ∧
    (chunkStep env audioPath i files).files = files.remove (chunkPath env audioPath i) := by
  obtain ⟨hex, ⟨p, resp, hp, hfetch, hresp⟩, hun⟩ := h
  have hun2 : env.unlink (chunkPath env audioPath i) = none := hun
  obtain ⟨size, hsize⟩ := hex ((i : ℚ) * chunkDuration) chunkDuration
  have hw : (files.write (chunkPath env audioPath i) size) (chunkPath env audioPath i)
      = some size := by
    simp [Files.write]
  have htc := transcribeChunk_present env _ _ p size hp hw
  have hrm : ((files.write (chunkPath env audioPath i) size).remove (chunkPath env audioPath i))
      = files.remove (chunkPath env audioPath i) := by
    funext q; by_cases hq : q = chunkPath env audioPath i <;> simp [Files.write, Files.remove, hq]
  unfold chunkStep extractAudioChunk
  rw [hsize]
  simp only [Run.andThen, htc, hfetch, hresp, unlinkSync, hw, hun2, Run.pure, stepEvents, hrm,
    postEvents, hp]
  simp

/-- A pass through the loop body in which extraction or transcription fails:
the error is thrown, one extraction was requested, at most the segment file was
uploaded, and when it was the transcription that failed the segment file is
left on disk. -/
theorem chunkStep_fails (env : Env) (audioPath : String) (i : Nat) (files : Files)
    (e : JsError) (h : SegmentFails env audioPath i e) :
    (chunkStep env audioPath i files).result = .error e ∧
    extractRequests (chunkStep env audioPath i files).events =
      [((i : ℚ) * chunkDuration, chunkDuration)] ∧
    (uploads (chunkStep env audioPath i files).events = [] ∨
      uploads (chunkStep env audioPath i files).events = [chunkPath env audioPath i]) ∧
    (ExtractOk env audioPath i →
      (chunkStep env audioPath i files).files (chunkPath env audioPath i) ≠ none ∧
      .unlink (chunkPath env audioPath i) ∉ (chunkStep env audioPath i files).events) := by
  rcases h with hex | ⟨hex, htr⟩
  · obtain ⟨left, hleft⟩ := hex ((i : ℚ) * chunkDuration) chunkDuration
    refine ⟨?_, ?_, ?_, ?_⟩
    · simp [chunkStep, extractAudioChunk, hleft, Run.andThen]
    · simp [chunkStep, extractAudioChunk, hleft, Run.andThen, extractRequests]
    · left; simp [chunkStep, extractAudioChunk, hleft, Run.andThen, uploads]
    · intro hok
      obtain ⟨size, hsize⟩ := hok ((i : ℚ) * chunkDuration) chunkDuration
      rw [hsize] at hleft; cases hleft
  · obtain ⟨size, hsize⟩ := hex ((i : ℚ) * chunkDuration) chunkDuration
    have hw : (files.write (chunkPath env audioPath i) size) (chunkPath env audioPath i)
        = some size := by
      simp [Files.write]
    have hres : (transcribeChunk env (files.write (chunkPath env audioPath i) size)
        (chunkPath env audioPath i)).result = .error e := by
      rcases htr with hp | ⟨p, hp, hf | ⟨resp, hf, hr⟩⟩
      · rw [transcribeChunk_noKey _ _ _ _ hp]
      · rw [transcribeChunk_present _ _ _ p size hp hw, hf]
      · rw [transcribeChunk_present _ _ _ p size hp hw, hf]; exact hr
    have hev := transcribeChunk_events env (files.write (chunkPath env audioPath i) size)
      (chunkPath env audioPath i)
    have hfl := transcribeChunk_files env (files.write (chunkPath env audioPath i) size)
      (chunkPath env audioPath i)
    have hstep : chunkStep env audioPath i files =
        ⟨.error e, files.write (chunkPath env audioPath i) size,
          .extract audioPath (chunkPath env audioPath i) ((i : ℚ) * chunkDuration) chunkDuration ::
            (transcribeChunk env (files.write (chunkPath env audioPath i) size)
              (chunkPath env audioPath i)).events⟩ := by
      unfold chunkStep extractAudioChunk
      rw [hsize]
      simp only [Run.andThen, hres, hfl]
      simp
    rw [hstep]
    refine ⟨rfl, ?_, ?_, ?_⟩
    · simp [extractRequests, hev.2.1]
    · simpa [uploads] using hev.2.2
    · intro _
      refine ⟨by simp [hw], ?_⟩
      intro hmem
      simp only [List.mem_cons] at hmem
      rcases hmem with hmem | hmem
      · cases hmem
      · have := hev.1 _ hmem
        unfold transcribeChunk at hmem
        revert hmem
        cases hp : getProvider env with
        | error e => simp
        | ok p =>
          by_cases hd : env.DEBUG = some "true" <;>
            cases hf : env.fetch p.url p.apiKey p.model (chunkPath env audioPath i) <;>
            simp [hd, hf, statSync, readFileSync, postAudio, hw, Run.andThen, Run.map, Run.pure,
              Except.map]

/-- A run of the loop in which every segment goes well: the texts are collected
in index order, the actions are those of the passes in index order, and every
segment file is gone afterwards. -/
theorem chunkLoop_ok (env : Env) (audioPath : String) :
    ∀ (vs : List JsVal) (i : Nat) (acc : List JsVal) (files : Files),
      (∀ j v, vs[j]? = some v → SegmentOk env audioPath (i + j) v) →
      (chunkLoop env audioPath vs.length i acc files).result = .ok (acc ++ vs) ∧
      (chunkLoop env audioPath vs.length i acc files).events =
        loopEvents env audioPath vs.length i ∧
      ∀ q, (chunkLoop env audioPath vs.length i acc files).files q =
        if ∃ j, j < vs.length ∧ q = chunkPath env audioPath (i + j) then none else files q := by
  intro vs
  induction vs with
  | nil =>
    intro i acc files _
    simp [chunkLoop, Run.pure, loopEvents]
  | cons v vs ih =>
    intro i acc files h
    have h0 : SegmentOk env audioPath i v := by
      have := h 0 v (by simp)
      simpa using this
    obtain ⟨hr, he, hf⟩ := chunkStep_ok env audioPath i files v h0
    have hrest : ∀ j w, vs[j]? = some w → SegmentOk env audioPath (i + 1 + j) w := by
      intro j w hj
      have := h (j + 1) w (by simpa using hj)
      have e : i + (j + 1) = i + 1 + j := by omega
      rwa [e] at this
    obtain ⟨ir, ie, ifl⟩ := ih (i + 1) (acc ++ [v]) (files.remove (chunkPath env audioPath i)) hrest
    simp only [List.length_cons, chunkLoop]
    rw [Run.andThen_ok _ hr, hf, he]
    refine ⟨by simpa using ir, by simp [loopEvents, ie], ?_⟩
    intro q
    simp only [ifl]
    by_cases hq : ∃ j, j < vs.length ∧ q = chunkPath env audioPath (i + 1 + j)
    · obtain ⟨j, hj, hqj⟩ := hq
      have : ∃ j, j < vs.length + 1 ∧ q = chunkPath env audioPath (i + j) :=
        ⟨j + 1, by omega, by rw [hqj]; congr 1; omega⟩
      rw [if_pos ⟨j, hj, hqj⟩, if_pos this]
    · rw [if_neg hq]
      by_cases hq0 : q = chunkPath env audioPath i
      · have : ∃ j, j < vs.length + 1 ∧ q = chunkPath env audioPath (i + j) :=
          ⟨0, by omega, by simpa using hq0⟩
        rw [if_pos this]
        simp [Files.remove, hq0]
      · have : ¬ ∃ j, j < vs.length + 1 ∧ q = chunkPath env audioPath (i + j) := by
          rintro ⟨j, hj, hqj⟩
          cases j with
          | zero => exact hq0 (by simpa using hqj)
          | succ j =>
            exact hq ⟨j, by omega, by rw [hqj]; congr 1; omega⟩
        rw [if_neg this]
        simp [Files.remove, hq0]

/-- When each of the first `n` segments can be processed, they have a list of
texts. -/
theorem exists_texts (env : Env) (audioPath : String) :
    ∀ n, (∀ i, i < n → ∃ v, SegmentOk env audioPath i v) →
      ∃ vs : List JsVal, vs.length = n ∧
        ∀ j v, vs[j]? = some v → SegmentOk env audioPath j v := by
  intro n
  induction n with
  | zero => intro _; exact ⟨[], rfl, by simp⟩
  | succ n ih =>
    intro h
    obtain ⟨vs, hlen, hvs⟩ := ih (fun i hi => h i (by omega))
    obtain ⟨v, hv⟩ := h n (by omega)
    refine ⟨vs ++ [v], by simp [hlen], ?_⟩
    intro j w hj
    by_cases hjn : j < vs.length
    · rw [List.getElem?_append_left hjn] at hj
      exact hvs j w hj
    · have hjn2 : vs.length ≤ j := by omega
      rw [List.getElem?_append_right hjn2] at hj
      have hj0 : j - vs.length = 0 := by
        by_contra hne
        have : [v][j - vs.length]? = none := by
          apply List.getElem?_eq_none
          simp; omega
        rw [this] at hj; cases hj
      rw [hj0] at hj
      simp at hj
      have : j = n := by omega
      subst this; subst hj; exact hv

/-- The time ranges requested in `n` successful passes from index `i`. -/
theorem extractRequests_loopEvents (env : Env) (audioPath : String) :
    ∀ n i, extractRequests (loopEvents env audioPath n i) =
      (List.range n).map fun j => (((i + j : Nat) : ℚ) * chunkDuration, chunkDuration) := by
  intro n
  induction n with
  | zero => intro i; simp [loopEvents, extractRequests]
  | succ n ih =>
    intro i
    rw [List.range_succ_eq_map]
    simp only [loopEvents, stepEvents, postEvents, List.map_cons, List.map_map]
    by_cases hd : env.DEBUG = some "true" <;> cases getProvider env <;>
      simp [hd, extractRequests, ih, Function.comp_def, Nat.add_assoc, Nat.add_comm 1]

/-- The files uploaded in `n` successful passes from index `i`, with a key
configured. -/
theorem uploads_loopEvents (env : Env) (audioPath : String) (p : Provider)
    (hp : getProvider env = .ok p) :
    ∀ n i, uploads (loopEvents env audioPath n i) =
      (List.range n).map fun j => chunkPath env audioPath (i + j) := by
  intro n
  induction n with
  | zero => intro i; simp [loopEvents, uploads]
  | succ n ih =>
    intro i
    rw [List.range_succ_eq_map]
    simp only [loopEvents, stepEvents, postEvents, hp, List.map_cons, List.map_map]
    by_cases hd : env.DEBUG = some "true" <;>
      simp [hd, uploads, ih, Function.comp_def, Nat.add_assoc, Nat.add_comm 1]

/-- A run of `transcribeLargeAudio` in which every segment goes well. -/
theorem transcribeLargeAudio_ok (env : Env) (files : Files) (audioPath : String) (d : ℚ)
    (vs : List JsVal) (hprobe : env.ffprobe audioPath = .ok d)
    (hlen : vs.length = (numChunks d).toNat)
    (hseg : ∀ j v, vs[j]? = some v → SegmentOk env audioPath j v) :
    (transcribeLargeAudio env files audioPath).result = arrayJoin " " vs ∧
    (transcribeLargeAudio env files audioPath).events =
      .probe audioPath :: loopEvents env audioPath (numChunks d).toNat 0 ∧
    ∀ q, (transcribeLargeAudio env files audioPath).files q =
      if ∃ j, j < (numChunks d).toNat ∧ q = chunkPath env audioPath j then none else files q := by
  have hseg0 : ∀ j v, vs[j]? = some v → SegmentOk env audioPath (0 + j) v := by
    intro j v hj; rw [Nat.zero_add]; exact hseg j v hj
  obtain ⟨hr, he, hf⟩ := chunkLoop_ok env audioPath vs 0 [] files hseg0
  rw [hlen] at hr he hf
  have hprobe2 : (getAudioDuration env files audioPath).result = .ok d := by
    simp [getAudioDuration, hprobe]
  unfold transcribeLargeAudio
  rw [Run.andThen_ok _ hprobe2]
  have hfiles : (getAudioDuration env files audioPath).files = files := rfl
  have hevents : (getAudioDuration env files audioPath).events = [.probe audioPath] := rfl
  rw [hfiles, hevents, Run.andThen_ok _ hr, he]
  refine ⟨by simp, by simp, ?_⟩
  intro q
  have := hf q
  simp only [Nat.zero_add] at this
  simpa using this

/-- Joining an array of strings. -/
theorem arrayJoin_strings (sep : String) (texts : List String) :
    arrayJoin sep (texts.map JsVal.str) = .ok (sep.intercalate texts) := by
  have h : joinPieces (texts.map JsVal.str) = .ok texts := by
    induction texts with
    | nil => rfl
    | cons t ts ih => simp [joinPieces, JsVal.joinPiece, JsVal.toStr, ih]
  simp [arrayJoin, h]

/-- A file above the threshold goes to `transcribeLargeAudio` after the stat. -/
theorem transcribeAudio_large (env : Env) (files : Files) (audioPath : String) (size : Nat)
    (hsize : files audioPath = some size) (hbig : MAX_FILE_SIZE < size) :
    (transcribeAudio env files audioPath).result =
      (transcribeLargeAudio env files audioPath).result.map JsVal.str ∧
    (transcribeAudio env files audioPath).events =
      .stat audioPath :: (transcribeLargeAudio env files audioPath).events ∧
    (transcribeAudio env files audioPath).files =
      (transcribeLargeAudio env files audioPath).files := by
  have hstat : (statSync files audioPath).result = .ok size := by simp [statSync, hsize]
  have hstatf : (statSync files audioPath).files = files := by simp [statSync, hsize]
  have hstate : (statSync files audioPath).events = [.stat audioPath] := by simp [statSync, hsize]
  unfold transcribeAudio
  rw [Run.andThen_ok _ hstat, hstatf, hstate, if_pos hbig]
  simp [Run.map]

/-- A file at or below the threshold goes to `transcribeChunk` after the stat. -/
theorem transcribeAudio_small (env : Env) (files : Files) (audioPath : String) (size : Nat)
    (hsize : files audioPath = some size) (hsmall : size ≤ MAX_FILE_SIZE) :
    (transcribeAudio env files audioPath).result =
      (transcribeChunk env files audioPath).result ∧
    (transcribeAudio env files audioPath).events =
      .stat audioPath :: (transcribeChunk env files audioPath).events ∧
    (transcribeAudio env files audioPath).files =
      (transcribeChunk env files audioPath).files := by
  have hstat : (statSync files audioPath).result = .ok size := by simp [statSync, hsize]
  have hstatf : (statSync files audioPath).files = files := by simp [statSync, hsize]
  have hstate : (statSync files audioPath).events = [.stat audioPath] := by simp [statSync, hsize]
  unfold transcribeAudio
  rw [Run.andThen_ok _ hstat, hstatf, hstate, if_neg (by omega)]
  simp

/-! ## Facts about the sample worlds -/

theorem numChunks_2100 : numChunks 2100 = 4 := by
  unfold numChunks chunkDuration
  rw [Int.ceil_eq_iff]; norm_num

theorem talk_provider : getProvider talkEnv =
    .ok ⟨"Groq", "gsk_test", "https://api.groq.com/openai/v1/audio/transcriptions",
      "whisper-large-v3"⟩ := by
  rfl

/-- In the sample world each of the four segments goes well. -/
theorem talk_segments (i : Nat) (hi : i < 4) :
    SegmentOk talkEnv "/tmp/talk.mp3" i (.str (talkText i)) := by
  refine ⟨fun _ _ => ⟨9600000, rfl⟩, ⟨_, okResponse (talkText i), talk_provider, ?_, ?_⟩, rfl⟩
  · interval_cases i <;> rfl
  · interval_cases i <;> rfl

/-! ## The claims -/

/-- C1: for a file above the size threshold whose duration probe reports `d`
and whose segments are all extracted, transcribed and unlinked without an error, segment `i`
as the string `text i`, `transcribeAudio` returns exactly the texts of the
segments in ascending index order joined by a single space, with nothing added
before, after or between them. -/
theorem transcribeAudio_joins_texts (env : Env) (files : Files) (audioPath : String)
    (size : Nat) (d : ℚ) (text : Nat → String)
    (hsize : files audioPath = some size) (hbig : MAX_FILE_SIZE < size)
    (hprobe : env.ffprobe audioPath = .ok d)
    (hseg : ∀ i, i < ⌈d / 600⌉.toNat → SegmentOk env audioPath i (.str (text i))) :
    (transcribeAudio env files audioPath).result =
      .ok (.str (" ".intercalate ((List.range ⌈d / 600⌉.toNat).map text))) := by
  have hn : ⌈d / 600⌉.toNat = (numChunks d).toNat := rfl
  have hsegs : ∀ j v, (((List.range (numChunks d).toNat).map text).map JsVal.str)[j]? = some v →
      SegmentOk env audioPath j v := by
    intro j v hj
    simp only [List.map_map, List.getElem?_map, Option.map_eq_some'] at hj
    obtain ⟨k, hk, rfl⟩ := hj
    have hlt : j < (numChunks d).toNat := by
      by_contra hlt
      rw [List.getElem?_eq_none (by simpa using hlt)] at hk
      cases hk
    rw [List.getElem?_range hlt] at hk
    cases hk
    exact hseg j (by rw [hn]; exact hlt)
  obtain ⟨hr, _, _⟩ := transcribeLargeAudio_ok env files audioPath d _ hprobe (by simp) hsegs
  rw [arrayJoin_strings] at hr
  rw [(transcribeAudio_large env files audioPath size hsize hbig).1, hr, hn]
  rfl

/-- C1, on the sample world: four segments transcribed as a, b, c, d give the
text `a b c d`. -/
theorem transcribeAudio_joins_texts_witness :
    (transcribeAudio talkEnv talkFiles "/tmp/talk.mp3").result = .ok (.str "a b c d") := by
  have h4 : ⌈(2100 : ℚ) / 600⌉.toNat = 4 := by
    have := numChunks_2100
    unfold numChunks chunkDuration at this
    rw [this]; rfl
  have h := transcribeAudio_joins_texts talkEnv talkFiles "/tmp/talk.mp3" 33600000 2100 talkText
    rfl (by decide) rfl (by rw [h4]; exact talk_segments)
  rw [h4] at h
  exact h

/-- The time ranges requested and the files uploaded by a run of
`transcribeLargeAudio` in which every segment goes well. -/
theorem transcribeLargeAudio_requests (env : Env) (files : Files) (audioPath : String) (d : ℚ)
    (hprobe : env.ffprobe audioPath = .ok d)
    (hseg : ∀ i, i < ⌈d / 600⌉.toNat → ∃ v, SegmentOk env audioPath i v) :
    extractRequests (transcribeLargeAudio env files audioPath).events =
      ((List.range ⌈d / 600⌉.toNat).map fun j : ℕ => ((j : ℚ) * 600, (600 : ℚ))) ∧
    uploads (transcribeLargeAudio env files audioPath).events =
      (List.range ⌈d / 600⌉.toNat).map fun j => chunkPath env audioPath j := by
  have hn : ⌈d / 600⌉.toNat = (numChunks d).toNat := rfl
  obtain ⟨vs, hlen, hvs⟩ := exists_texts env audioPath _ hseg
  obtain ⟨_, he, _⟩ := transcribeLargeAudio_ok env files audioPath d vs hprobe (hlen.trans hn) hvs
  rw [he, ← hn]
  constructor
  · have h1 : extractRequests (.probe audioPath :: loopEvents env audioPath ⌈d / 600⌉.toNat 0) =
        extractRequests (loopEvents env audioPath ⌈d / 600⌉.toNat 0) := rfl
    rw [h1, extractRequests_loopEvents]
    apply List.map_congr_left
    intro j _
    simp [chunkDuration]
  · have h1 : uploads (.probe audioPath :: loopEvents env audioPath ⌈d / 600⌉.toNat 0) =
        uploads (loopEvents env audioPath ⌈d / 600⌉.toNat 0) := rfl
    rw [h1]
    by_cases hz : ⌈d / 600⌉.toNat = 0
    · rw [hz]; rfl
    · obtain ⟨v, _, ⟨p, _, hp, _, _⟩, _⟩ := hseg 0 (by omega)
      rw [uploads_loopEvents env audioPath p hp]
      apply List.map_congr_left
      intro j _
      simp

theorem talk_ceil : ⌈(2100 : ℚ) / 600⌉ = 4 := by
  rw [Int.ceil_eq_iff]; norm_num

/-- The time ranges requested in the sample world. -/
theorem talk_requests :
    extractRequests (transcribeLargeAudio talkEnv talkFiles "/tmp/talk.mp3").events =
      [(0, 600), (600, 600), (1200, 600), (1800, 600)] := by
  have h := (transcribeLargeAudio_requests talkEnv talkFiles "/tmp/talk.mp3" 2100 rfl
    (by rw [talk_ceil]; exact fun i hi => ⟨_, talk_segments i hi⟩)).1
  rw [h, talk_ceil]
  simp [List.range_succ]
  norm_num

/-- C2: when the duration probe reports `d >= 0` and every segment is
extracted, transcribed and unlinked without an error, the number of segments that
`transcribeLargeAudio` processes (extractions requested, files uploaded) is
`ceil (d / 600)`; a duration of 0 gives no segment, 600 gives one, 2100 gives
four. -/
theorem segment_count_eq_ceil (env : Env) (files : Files) (audioPath : String) (d : ℚ)
    (hprobe : env.ffprobe audioPath = .ok d) (hd : 0 ≤ d)
    (hseg : ∀ i, i < ⌈d / 600⌉.toNat → ∃ v, SegmentOk env audioPath i v) :
    ((extractRequests (transcribeLargeAudio env files audioPath).events).length : ℤ) =
      ⌈d / 600⌉ ∧
    ((uploads (transcribeLargeAudio env files audioPath).events).length : ℤ) = ⌈d / 600⌉ ∧
    (d = 0 → (extractRequests (transcribeLargeAudio env files audioPath).events).length = 0) ∧
    (d = 600 → (extractRequests (transcribeLargeAudio env files audioPath).events).length = 1) ∧
    (d = 2100 → (extractRequests (transcribeLargeAudio env files audioPath).events).length = 4) := by
  obtain ⟨hreq, hup⟩ := transcribeLargeAudio_requests env files audioPath d hprobe hseg
  have hnn : 0 ≤ ⌈d / 600⌉ := Int.ceil_nonneg (div_nonneg hd (by norm_num))
  have hcast : ((⌈d / 600⌉.toNat : ℕ) : ℤ) = ⌈d / 600⌉ := Int.toNat_of_nonneg hnn
  rw [hreq, hup]
  simp only [List.length_map, List.length_range]
  refine ⟨hcast, hcast, ?_, ?_, ?_⟩
  · intro h0; subst h0; simp
  · intro h; subst h
    have : ⌈(600 : ℚ) / 600⌉ = 1 := by rw [Int.ceil_eq_iff]; norm_num
    rw [this]; rfl
  · intro h; subst h
    rw [talk_ceil]; rfl

/-- C2, on the sample world: the 2100-second file is processed in four
segments. -/
theorem segment_count_eq_ceil_witness :
    ((extractRequests (transcribeLargeAudio talkEnv talkFiles "/tmp/talk.mp3").events).length
      : ℤ) = 4 ∧
    ((uploads (transcribeLargeAudio talkEnv talkFiles "/tmp/talk.mp3").events).length : ℤ) = 4 := by
  have h := segment_count_eq_ceil talkEnv talkFiles "/tmp/talk.mp3" 2100 rfl (by norm_num)
    (by rw [talk_ceil]; exact fun i hi => ⟨_, talk_segments i hi⟩)
  rw [talk_ceil] at h
  exact ⟨h.1, h.2.1⟩

/-- C3 as stated fails: in the sample world the probe reports 2100 seconds and
the range requested for segment 3 has length 600, not
`min 600 (2100 - 3 * 600) = 300`. -/
theorem extract_length_is_not_min :
    talkEnv.ffprobe "/tmp/talk.mp3" = .ok 2100 ∧
    ∃ i : Nat, (i : ℤ) < ⌈(2100 : ℚ) / 600⌉ ∧
      (extractRequests (transcribeLargeAudio talkEnv talkFiles "/tmp/talk.mp3").events)[i]? ≠
        some ((i : ℚ) * 600, min 600 (2100 - (i : ℚ) * 600)) := by
  refine ⟨rfl, 3, by rw [talk_ceil]; norm_num, ?_⟩
  rw [talk_requests]
  norm_num

/-- C3, amended: when the duration probe reports `d` and every segment is
extracted, transcribed and unlinked without an error, the time range requested from the
segment extractor for every segment index `i` below the segment count has
start `i * 600` and length 600; for a 2100-second file the starts are
0, 600, 1200, 1800 and every requested length is 600. -/
theorem extract_request_of_index (env : Env) (files : Files) (audioPath : String) (d : ℚ)
    (hprobe : env.ffprobe audioPath = .ok d)
    (hseg : ∀ i, i < ⌈d / 600⌉.toNat → ∃ v, SegmentOk env audioPath i v) :
    (∀ i : Nat, (i : ℤ) < ⌈d / 600⌉ →
      (extractRequests (transcribeLargeAudio env files audioPath).events)[i]? =
        some ((i : ℚ) * 600, 600)) ∧
    (d = 2100 → extractRequests (transcribeLargeAudio env files audioPath).events =
      [(0, 600), (600, 600), (1200, 600), (1800, 600)]) := by
  obtain ⟨hreq, _⟩ := transcribeLargeAudio_requests env files audioPath d hprobe hseg
  rw [hreq]
  constructor
  · intro i hi
    have hlt : i < ⌈d / 600⌉.toNat := by omega
    rw [List.getElem?_map, List.getElem?_range hlt]
    rfl
  · intro h; subst h
    rw [talk_ceil]
    simp [List.range_succ]
    norm_num

/-- C3 amended, on the sample world: segment 3 of the 2100-second file is
requested as the range starting at 1800 of length 600. -/
theorem extract_request_of_index_witness :
    (extractRequests (transcribeLargeAudio talkEnv talkFiles "/tmp/talk.mp3").events)[3]? =
      some (1800, 600) := by
  have h := (extract_request_of_index talkEnv talkFiles "/tmp/talk.mp3" 2100 rfl
    (by rw [talk_ceil]; exact fun i hi => ⟨_, talk_segments i hi⟩)).1 3
    (by rw [talk_ceil]; norm_num)
  rw [h]
  norm_num

/-- C4 as stated fails: in the sample world the probe reports 2100 seconds and
the requested lengths sum to 2400, and the last segment is requested with the
full length 600 although only 300 seconds remain. -/
theorem requested_lengths_exceed_duration :
    talkEnv.ffprobe "/tmp/talk.mp3" = .ok 2100 ∧
    ((extractRequests (transcribeLargeAudio talkEnv talkFiles "/tmp/talk.mp3").events).map
      Prod.snd).sum = 2400 ∧
    ((extractRequests (transcribeLargeAudio talkEnv talkFiles "/tmp/talk.mp3").events).map
      Prod.snd).sum ≠ 2100 := by
  rw [talk_requests]
  refine ⟨rfl, ?_, ?_⟩ <;> norm_num

/-- C4, amended: when the duration probe reports `d > 0` and every segment is
extracted, transcribed and unlinked without an error, the requested ranges tile
`[0, 600 * ceil (d / 600))`: the first starts at 0, each next one starts where
the previous one ends, every requested length is exactly 600 (so none is
shorter, the last included), and the sum of the requested lengths is
`600 * ceil (d / 600)`, which is at least `d` and less than `d + 600`. -/
theorem extract_requests_tile (env : Env) (files : Files) (audioPath : String) (d : ℚ)
    (hprobe : env.ffprobe audioPath = .ok d) (hd : 0 < d)
    (hseg : ∀ i, i < ⌈d / 600⌉.toNat → ∃ v, SegmentOk env audioPath i v) :
    (extractRequests (transcribeLargeAudio env files audioPath).events).head? =
      some (0, 600) ∧
    (∀ i s l s2 l2,
      (extractRequests (transcribeLargeAudio env files audioPath).events)[i]? = some (s, l) →
      (extractRequests (transcribeLargeAudio env files audioPath).events)[i + 1]? =
        some (s2, l2) →
      s2 = s + l) ∧
    (∀ r ∈ extractRequests (transcribeLargeAudio env files audioPath).events, r.2 = 600) ∧
    ((extractRequests (transcribeLargeAudio env files audioPath).events).map Prod.snd).sum =
      600 * (⌈d / 600⌉ : ℚ) ∧
    d ≤ ((extractRequests (transcribeLargeAudio env files audioPath).events).map Prod.snd).sum ∧
    ((extractRequests (transcribeLargeAudio env files audioPath).events).map Prod.snd).sum <
      d + 600 := by
  obtain ⟨hreq, _⟩ := transcribeLargeAudio_requests env files audioPath d hprobe hseg
  rw [hreq]
  have hpos : 0 < ⌈d / 600⌉ := Int.ceil_pos.mpr (div_pos hd (by norm_num))
  have hcast : ((⌈d / 600⌉.toNat : ℕ) : ℤ) = ⌈d / 600⌉ := Int.toNat_of_nonneg hpos.le
  have hcastq : ((⌈d / 600⌉.toNat : ℕ) : ℚ) = (⌈d / 600⌉ : ℚ) := by
    rw [← Int.cast_natCast, hcast]
  have hsum : (((List.range ⌈d / 600⌉.toNat).map fun j : ℕ => ((j : ℚ) * 600, (600 : ℚ))).map
      Prod.snd).sum = 600 * (⌈d / 600⌉ : ℚ) := by
    rw [List.map_map]
    have : (Prod.snd ∘ fun j : ℕ => ((j : ℚ) * 600, (600 : ℚ))) = fun _ => (600 : ℚ) := rfl
    rw [this, List.map_const', List.sum_replicate, List.length_range, nsmul_eq_mul, hcastq]
    ring
  have hle : d / 600 ≤ (⌈d / 600⌉ : ℚ) := Int.le_ceil _
  have hlt : (⌈d / 600⌉ : ℚ) < d / 600 + 1 := Int.ceil_lt_add_one _
  refine ⟨?_, ?_, ?_, hsum, ?_, ?_⟩
  · have h1 : ⌈d / 600⌉.toNat = (⌈d / 600⌉.toNat - 1) + 1 := by omega
    rw [h1, List.range_succ_eq_map]
    simp
  · intro i s l s2 l2 h1 h2
    rw [List.getElem?_map] at h1 h2
    have hi1 : i + 1 < ⌈d / 600⌉.toNat := by
      by_contra hcon
      rw [List.getElem?_eq_none (by simpa using hcon)] at h2
      cases h2
    rw [List.getElem?_range hi1] at h2
    rw [List.getElem?_range (by omega)] at h1
    simp only [Option.map_some', Option.some.injEq, Prod.mk.injEq] at h1 h2
    rw [← h1.1, ← h1.2, ← h2.1]
    push_cast; ring
  · intro r hr
    simp only [List.mem_map, List.mem_range] at hr
    obtain ⟨j, _, rfl⟩ := hr
    rfl
  · rw [hsum]
    have := mul_le_mul_of_nonneg_left hle (by norm_num : (0 : ℚ) ≤ 600)
    linarith
  · rw [hsum]
    have := mul_lt_mul_of_pos_left hlt (by norm_num : (0 : ℚ) < 600)
    linarith

/-- C4 amended, on the sample world: the requested lengths of the 2100-second
file sum to `600 * 4`. -/
theorem extract_requests_tile_witness :
    ((extractRequests (transcribeLargeAudio talkEnv talkFiles "/tmp/talk.mp3").events).map
      Prod.snd).sum = 600 * ((4 : ℤ) : ℚ) := by
  have h := (extract_requests_tile talkEnv talkFiles "/tmp/talk.mp3" 2100 rfl (by norm_num)
    (by rw [talk_ceil]; exact fun i hi => ⟨_, talk_segments i hi⟩)).2.2.2.1
  rw [talk_ceil] at h
  exact h

/-- The function `transcribeLargeAudio` always starts with the duration probe. -/
theorem probe_mem_transcribeLargeAudio (env : Env) (files : Files) (audioPath : String) :
    .probe audioPath ∈ (transcribeLargeAudio env files audioPath).events := by
  unfold transcribeLargeAudio Run.andThen getAudioDuration
  cases env.ffprobe audioPath <;> simp

/-- C5: `transcribeAudio` takes the direct path if and only if the file size
is at most `25 * 1024 * 1024 = 26214400` bytes. At or below the threshold it
does, after the stat, exactly what one call of `transcribeChunk` on the original
file does: no duration probe, no extraction, and (with a key configured) exactly
one upload, of the original file. Above the threshold the duration is probed and
the result is that of `transcribeLargeAudio`. -/
theorem direct_path_iff_small (env : Env) (files : Files) (audioPath : String) (size : Nat)
    (hsize : files audioPath = some size) :
    MAX_FILE_SIZE = 26214400 ∧
    (size ≤ 26214400 ↔
      ∀ ev ∈ (transcribeAudio env files audioPath).events, ev.isMediaWork = false) ∧
    (size ≤ 26214400 →
      (transcribeAudio env files audioPath).result =
        (transcribeChunk env files audioPath).result ∧
      (transcribeAudio env files audioPath).events =
        .stat audioPath :: (transcribeChunk env files audioPath).events ∧
      extractRequests (transcribeAudio env files audioPath).events = [] ∧
      (uploads (transcribeAudio env files audioPath).events = [] ∨
        uploads (transcribeAudio env files audioPath).events = [audioPath]) ∧
      (∀ p, getProvider env = .ok p →
        uploads (transcribeAudio env files audioPath).events = [audioPath])) ∧
    (26214400 < size →
      .probe audioPath ∈ (transcribeAudio env files audioPath).events ∧
      (transcribeAudio env files audioPath).result =
        (transcribeLargeAudio env files audioPath).result.map JsVal.str) := by
  have hmax : MAX_FILE_SIZE = 26214400 := by decide
  have hsmall : size ≤ 26214400 →
      (transcribeAudio env files audioPath).result =
        (transcribeChunk env files audioPath).result ∧
      (transcribeAudio env files audioPath).events =
        .stat audioPath :: (transcribeChunk env files audioPath).events := by
    intro h
    obtain ⟨h1, h2, _⟩ := transcribeAudio_small env files audioPath size hsize (by rw [hmax]; exact h)
    exact ⟨h1, h2⟩
  have hlarge : 26214400 < size →
      .probe audioPath ∈ (transcribeAudio env files audioPath).events ∧
      (transcribeAudio env files audioPath).result =
        (transcribeLargeAudio env files audioPath).result.map JsVal.str := by
    intro h
    obtain ⟨h1, h2, _⟩ := transcribeAudio_large env files audioPath size hsize (by rw [hmax]; exact h)
    refine ⟨?_, h1⟩
    rw [h2]
    exact List.mem_cons_of_mem _ (probe_mem_transcribeLargeAudio env files audioPath)
  obtain ⟨hk, hx, hu⟩ := transcribeChunk_events env files audioPath
  refine ⟨hmax, ⟨?_, ?_⟩, ?_, hlarge⟩
  · intro h ev hev
    rw [(hsmall h).2] at hev
    rcases List.mem_cons.mp hev with rfl | hev
    · rfl
    · exact hk ev hev
  · intro h
    by_contra hnot
    have := h _ (hlarge (by omega)).1
    simp [Event.isMediaWork] at this
  · intro h
    obtain ⟨h1, h2⟩ := hsmall h
    refine ⟨h1, h2, ?_, ?_, ?_⟩
    · rw [h2]; simpa [extractRequests] using hx
    · rw [h2]; simpa [uploads] using hu
    · intro p hp
      rw [h2, transcribeChunk_present env files audioPath p size hp hsize]
      by_cases hd : env.DEBUG = some "true" <;> simp [hd, uploads]

/-- C5, at the boundary: in the sample world a file of exactly 26214400 bytes
is transcribed directly, with one upload of the original file and no probe or
extraction, and a file of 26214401 bytes is chunked. -/
theorem direct_path_iff_small_witness :
    (uploads (transcribeAudio talkEnv (singleFile "/tmp/talk.mp3" 26214400)
        "/tmp/talk.mp3").events = ["/tmp/talk.mp3"] ∧
      ∀ ev ∈ (transcribeAudio talkEnv (singleFile "/tmp/talk.mp3" 26214400)
        "/tmp/talk.mp3").events, ev.isMediaWork = false) ∧
    Event.probe "/tmp/talk.mp3" ∈
      (transcribeAudio talkEnv (singleFile "/tmp/talk.mp3" 26214401) "/tmp/talk.mp3").events :=
  ⟨⟨(direct_path_iff_small talkEnv (singleFile "/tmp/talk.mp3" 26214400) "/tmp/talk.mp3"
        26214400 rfl).2.2.1 (by decide) |>.2.2.2.2 _ talk_provider,
     (direct_path_iff_small talkEnv (singleFile "/tmp/talk.mp3" 26214400) "/tmp/talk.mp3"
        26214400 rfl).2.1.mp (by decide)⟩,
   ((direct_path_iff_small talkEnv (singleFile "/tmp/talk.mp3" 26214401) "/tmp/talk.mp3"
        26214401 rfl).2.2.2 (by decide)).1⟩

/-! ## Lemmas on a failing loop -/

theorem extractRequests_append (a b : List Event) :
    extractRequests (a ++ b) = extractRequests a ++ extractRequests b := by
  induction a with
  | nil => rfl
  | cons ev a ih => cases ev <;> simp [extractRequests, ih]

theorem uploads_append (a b : List Event) :
    uploads (a ++ b) = uploads a ++ uploads b := by
  induction a with
  | nil => rfl
  | cons ev a ih => cases ev <;> simp [uploads, ih]

/-- The requests of one successful pass through the loop body. -/
theorem requests_stepEvents (env : Env) (audioPath : String) (i : Nat) (p : Provider)
    (hp : getProvider env = .ok p) :
    extractRequests (stepEvents env audioPath i) = [((i : ℚ) * chunkDuration, chunkDuration)] ∧
    uploads (stepEvents env audioPath i) = [chunkPath env audioPath i] := by
  unfold stepEvents postEvents
  rw [hp]
  by_cases hd : env.DEBUG = some "true" <;> simp [hd, extractRequests, uploads]

/-- A run of the loop in which the segments before index `i + vs.length` go
well and that segment fails: the error is thrown, the extractions requested are
those of the segments up to the failing one, once each, and the uploads are
those of the segments before it, followed at most by the failing one. -/
theorem chunkLoop_fails (env : Env) (audioPath : String) (e : JsError) :
    ∀ (vs : List JsVal) (n i : Nat) (acc : List JsVal) (files : Files),
      vs.length < n →
      (∀ j v, vs[j]? = some v → SegmentOk env audioPath (i + j) v) →
      SegmentFails env audioPath (i + vs.length) e →
      (chunkLoop env audioPath n i acc files).result = .error e ∧
      extractRequests (chunkLoop env audioPath n i acc files).events =
        ((List.range (vs.length + 1)).map fun j : ℕ =>
          (((i + j : ℕ) : ℚ) * chunkDuration, chunkDuration)) ∧
      (∃ tail, uploads (chunkLoop env audioPath n i acc files).events =
          ((List.range vs.length).map fun j : ℕ => chunkPath env audioPath (i + j)) ++ tail ∧
        (tail = [] ∨ tail = [chunkPath env audioPath (i + vs.length)])) ∧
      (ExtractOk env audioPath (i + vs.length) →
        (chunkLoop env audioPath n i acc files).files
          (chunkPath env audioPath (i + vs.length)) ≠ none) := by
  intro vs
  induction vs with
  | nil =>
    intro n i acc files hn _ hfail
    obtain ⟨m, rfl⟩ : ∃ m, n = m + 1 := ⟨n - 1, by simp at hn; omega⟩
    simp only [List.length_nil, Nat.add_zero] at hfail ⊢
    obtain ⟨hr, hx, hu, hfile⟩ := chunkStep_fails env audioPath i files e hfail
    simp only [chunkLoop]
    rw [Run.andThen_error _ hr]
    refine ⟨rfl, by rw [hx]; simp [List.range_succ], ⟨_, by simp, hu⟩, fun hok => (hfile hok).1⟩
  | cons v vs ih =>
    intro n i acc files hn h hfail
    obtain ⟨m, rfl⟩ : ∃ m, n = m + 1 := ⟨n - 1, by simp at hn; omega⟩
    have hm : vs.length < m := by simp at hn; omega
    have h0 : SegmentOk env audioPath i v := by
      have := h 0 v (by simp)
      simpa using this
    obtain ⟨p, hp⟩ : ∃ p, getProvider env = .ok p := by
      obtain ⟨_, ⟨p, _, hp, _⟩, _⟩ := h0
      exact ⟨p, hp⟩
    obtain ⟨hr, he, hf⟩ := chunkStep_ok env audioPath i files v h0
    have hrest : ∀ j w, vs[j]? = some w → SegmentOk env audioPath (i + 1 + j) w := by
      intro j w hj
      have := h (j + 1) w (by simpa using hj)
      have e : i + (j + 1) = i + 1 + j := by omega
      rwa [e] at this
    have hidx : i + (v :: vs).length = i + 1 + vs.length := by simp; omega
    rw [hidx] at hfail
    obtain ⟨ir, ix, ⟨tail, iu, itail⟩, ifile⟩ :=
      ih m (i + 1) (acc ++ [v]) (files.remove (chunkPath env audioPath i)) hm hrest hfail
    obtain ⟨sx, su⟩ := requests_stepEvents env audioPath i p hp
    simp only [chunkLoop]
    rw [Run.andThen_ok _ hr, hf, he, hidx]
    refine ⟨ir, ?_, ⟨tail, ?_, itail⟩, ifile⟩
    · simp only [extractRequests_append, sx, ix, List.length_cons]
      rw [List.range_succ_eq_map (vs.length + 1)]
      simp [Function.comp_def, Nat.add_assoc, Nat.add_comm 1]
    · simp only [uploads_append, su, iu, List.length_cons]
      rw [List.range_succ_eq_map vs.length]
      simp [Function.comp_def, Nat.add_assoc, Nat.add_comm 1]

/-- A run of `transcribeLargeAudio` in which segment `k` is the first to fail. -/
theorem transcribeLargeAudio_fails (env : Env) (files : Files) (audioPath : String) (d : ℚ)
    (k : Nat) (e : JsError) (hprobe : env.ffprobe audioPath = .ok d)
    (hk : (k : ℤ) < ⌈d / 600⌉)
    (hpre : ∀ i, i < k → ∃ v, SegmentOk env audioPath i v)
    (hfail : SegmentFails env audioPath k e) :
    (transcribeLargeAudio env files audioPath).result = .error e ∧
    extractRequests (transcribeLargeAudio env files audioPath).events =
      ((List.range (k + 1)).map fun j : ℕ => ((j : ℚ) * 600, (600 : ℚ))) ∧
    (∃ tail, uploads (transcribeLargeAudio env files audioPath).events =
        ((List.range k).map fun j : ℕ => chunkPath env audioPath j) ++ tail ∧
      (tail = [] ∨ tail = [chunkPath env audioPath k])) ∧
    (ExtractOk env audioPath k →
      (transcribeLargeAudio env files audioPath).files (chunkPath env audioPath k) ≠ none) := by
  obtain ⟨vs, hlen, hvs⟩ := exists_texts env audioPath k hpre
  have hn : vs.length < (numChunks d).toNat := by
    have : ⌈d / 600⌉ = numChunks d := rfl
    rw [hlen]; omega
  have hvs0 : ∀ j v, vs[j]? = some v → SegmentOk env audioPath (0 + j) v := by
    intro j v hj; rw [Nat.zero_add]; exact hvs j v hj
  have hfail0 : SegmentFails env audioPath (0 + vs.length) e := by
    rw [Nat.zero_add, hlen]; exact hfail
  obtain ⟨hr, hx, ⟨tail, hu, htail⟩, hfile⟩ :=
    chunkLoop_fails env audioPath e vs _ 0 [] files hn hvs0 hfail0
  simp only [Nat.zero_add, hlen] at hx hu htail hfile
  have hprobe2 : (getAudioDuration env files audioPath).result = .ok d := by
    simp [getAudioDuration, hprobe]
  have hfiles : (getAudioDuration env files audioPath).files = files := rfl
  have hevents : (getAudioDuration env files audioPath).events = [.probe audioPath] := rfl
  unfold transcribeLargeAudio
  rw [Run.andThen_ok _ hprobe2, hfiles, hevents, Run.andThen_error _ hr]
  refine ⟨rfl, ?_, ⟨tail, ?_, htail⟩, hfile⟩
  · simp only [List.singleton_append]
    have h1 : ∀ l, extractRequests (.probe audioPath :: l) = extractRequests l := fun _ => rfl
    rw [h1, hx]
    apply List.map_congr_left
    intro j _
    simp [chunkDuration]
  · simp only [List.singleton_append]
    have h1 : ∀ l, uploads (.probe audioPath :: l) = uploads l := fun _ => rfl
    rw [h1, hu]

/-- In the failing sample world the first segment goes well. -/
theorem fail_segment0 : SegmentOk failEnv "/tmp/talk.mp3" 0 (.str "a") :=
  ⟨fun _ _ => ⟨9600000, rfl⟩, ⟨_, okResponse "a", rfl, rfl, rfl⟩, rfl⟩

/-- In the failing sample world the transcription of the second segment
fails. -/
theorem fail_segment1 :
    SegmentFails failEnv "/tmp/talk.mp3" 1 ⟨"Error", "HTTP 503: overloaded"⟩ :=
  Or.inr ⟨fun _ _ => ⟨9600000, rfl⟩, Or.inr ⟨_, rfl, Or.inr ⟨overloaded, rfl, rfl⟩⟩⟩

theorem fail_ceil : ⌈(1500 : ℚ) / 600⌉ = 3 := by
  rw [Int.ceil_eq_iff]; norm_num

/-- C6: in a chunked transcription, if the segments before `k` go well and
extraction or transcription of segment `k` (below the segment count) fails with
error `e`, then `transcribeAudio` fails with that same error and returns no
text; the extractions requested are exactly those of segments 0 to `k`, once
each, and the uploads are exactly those of segments 0 to `k - 1`, followed at
most once by that of segment `k`: nothing is done for a later segment and
segment `k` is not retried. -/
theorem failure_aborts_transcription (env : Env) (files : Files) (audioPath : String)
    (size : Nat) (d : ℚ) (k : Nat) (e : JsError)
    (hsize : files audioPath = some size) (hbig : MAX_FILE_SIZE < size)
    (hprobe : env.ffprobe audioPath = .ok d) (hk : (k : ℤ) < ⌈d / 600⌉)
    (hpre : ∀ i, i < k → ∃ v, SegmentOk env audioPath i v)
    (hfail : SegmentFails env audioPath k e) :
    (transcribeAudio env files audioPath).result = .error e ∧
    (∀ text, (transcribeAudio env files audioPath).result ≠ .ok text) ∧
    extractRequests (transcribeAudio env files audioPath).events =
      ((List.range (k + 1)).map fun j : ℕ => ((j : ℚ) * 600, (600 : ℚ))) ∧
    (∃ tail, uploads (transcribeAudio env files audioPath).events =
        ((List.range k).map fun j : ℕ => chunkPath env audioPath j) ++ tail ∧
      (tail = [] ∨ tail = [chunkPath env audioPath k])) := by
  obtain ⟨hr, hx, hu, _⟩ :=
    transcribeLargeAudio_fails env files audioPath d k e hprobe hk hpre hfail
  obtain ⟨h1, h2, _⟩ := transcribeAudio_large env files audioPath size hsize hbig
  have hres : (transcribeAudio env files audioPath).result = .error e := by
    rw [h1, hr]; rfl
  refine ⟨hres, ?_, ?_, ?_⟩
  · intro text h
    rw [hres] at h
    cases h
  · rw [h2]
    exact hx
  · rw [h2]
    exact hu

/-- C6, on the failing sample world: the second of three segments fails
transcription with status 503; the call fails with that error after two
extractions. -/
theorem failure_aborts_transcription_witness :
    (transcribeAudio failEnv talkFiles "/tmp/talk.mp3").result =
      .error ⟨"Error", "HTTP 503: overloaded"⟩ ∧
    (extractRequests (transcribeAudio failEnv talkFiles "/tmp/talk.mp3").events).length = 2 := by
  have h := failure_aborts_transcription failEnv talkFiles "/tmp/talk.mp3" 33600000 1500 1
    ⟨"Error", "HTTP 503: overloaded"⟩ rfl (by decide) rfl (by rw [fail_ceil]; norm_num)
    (fun i hi => ⟨.str "a", by
      have : i = 0 := by omega
      subst this; exact fail_segment0⟩)
    fail_segment1
  refine ⟨h.1, ?_⟩
  rw [h.2.2.1]
  simp

/-- C7 as stated fails: in the failing sample world the file of the second
segment is extracted, its transcription fails, `transcribeLargeAudio` throws,
and the segment file is still on disk, never unlinked. -/
theorem failed_segment_file_is_left :
    (transcribeLargeAudio failEnv talkFiles "/tmp/talk.mp3").result =
      .error ⟨"Error", "HTTP 503: overloaded"⟩ ∧
    Event.extract "/tmp/talk.mp3" "/tmp/talk_chunk_1.mp3" 600 600 ∈
      (transcribeLargeAudio failEnv talkFiles "/tmp/talk.mp3").events ∧
    Event.unlink "/tmp/talk_chunk_1.mp3" ∉
      (transcribeLargeAudio failEnv talkFiles "/tmp/talk.mp3").events ∧
    (transcribeLargeAudio failEnv talkFiles "/tmp/talk.mp3").files "/tmp/talk_chunk_1.mp3" =
      some 9600000 := by
  have hev : (transcribeLargeAudio failEnv talkFiles "/tmp/talk.mp3").events =
      [.probe "/tmp/talk.mp3",
       .extract "/tmp/talk.mp3" "/tmp/talk_chunk_0.mp3" 0 600,
       .readFile "/tmp/talk_chunk_0.mp3",
       .post "https://api.groq.com/openai/v1/audio/transcriptions" "gsk_test" "whisper-large-v3"
         "/tmp/talk_chunk_0.mp3",
       .unlink "/tmp/talk_chunk_0.mp3",
       .extract "/tmp/talk.mp3" "/tmp/talk_chunk_1.mp3" 600 600,
       .readFile "/tmp/talk_chunk_1.mp3",
       .post "https://api.groq.com/openai/v1/audio/transcriptions" "gsk_test" "whisper-large-v3"
         "/tmp/talk_chunk_1.mp3"] := by
    with_unfolding_all rfl
  refine ⟨by with_unfolding_all rfl, ?_, ?_, by with_unfolding_all rfl⟩
  · rw [hev]; simp
  · rw [hev]; simp

/-- C7, amended: in a chunked transcription each segment file is deleted
immediately after its transcription call when that call succeeded. When every
segment is extracted, transcribed and unlinked without an error, the actions are exactly the
passes extract, read, post, unlink in index order, and when
`transcribeLargeAudio` ends no segment file exists on disk. When the segments
before `k` go well and the transcription of the extracted segment `k` fails,
`transcribeLargeAudio` throws that error and the file of segment `k` is left on
disk. -/
theorem segment_file_deleted_after_success (env : Env) (files : Files) (audioPath : String)
    (d : ℚ) (hprobe : env.ffprobe audioPath = .ok d) :
    ((∀ i, i < ⌈d / 600⌉.toNat → ∃ v, SegmentOk env audioPath i v) →
      (transcribeLargeAudio env files audioPath).events =
        .probe audioPath :: loopEvents env audioPath ⌈d / 600⌉.toNat 0 ∧
      ∀ i, i < ⌈d / 600⌉.toNat →
        (transcribeLargeAudio env files audioPath).files (chunkPath env audioPath i) = none) ∧
    (∀ (k : ℕ) (e : JsError), (k : ℤ) < ⌈d / 600⌉ →
      (∀ i, i < k → ∃ v, SegmentOk env audioPath i v) →
      ExtractOk env audioPath k → TranscribeFails env audioPath k e →
      (transcribeLargeAudio env files audioPath).result = .error e ∧
      (transcribeLargeAudio env files audioPath).files (chunkPath env audioPath k) ≠ none) := by
  have hn : ⌈d / 600⌉.toNat = (numChunks d).toNat := rfl
  constructor
  · intro hseg
    obtain ⟨vs, hlen, hvs⟩ := exists_texts env audioPath _ hseg
    obtain ⟨_, he, hf⟩ :=
      transcribeLargeAudio_ok env files audioPath d vs hprobe (hlen.trans hn) hvs
    refine ⟨by rw [he, hn], ?_⟩
    intro i hi
    rw [hf, if_pos ⟨i, by rw [← hn]; exact hi, rfl⟩]
  · intro k e hk hpre hex htr
    obtain ⟨hr, _, _, hfile⟩ :=
      transcribeLargeAudio_fails env files audioPath d k e hprobe hk hpre (Or.inr ⟨hex, htr⟩)
    exact ⟨hr, hfile hex⟩

/-- C7 amended, on the sample worlds: after the successful run the file of the
last segment is gone, and after the failing run the file of the failing
segment is still there. -/
theorem segment_file_deleted_after_success_witness :
    (transcribeLargeAudio talkEnv talkFiles "/tmp/talk.mp3").files "/tmp/talk_chunk_3.mp3" =
      none ∧
    (transcribeLargeAudio failEnv talkFiles "/tmp/talk.mp3").files "/tmp/talk_chunk_1.mp3" ≠
      none :=
  ⟨((segment_file_deleted_after_success talkEnv talkFiles "/tmp/talk.mp3" 2100 rfl).1
      (by rw [talk_ceil]; exact fun i hi => ⟨_, talk_segments i hi⟩)).2 3
      (by rw [talk_ceil]; decide),
   ((segment_file_deleted_after_success failEnv talkFiles "/tmp/talk.mp3" 1500 rfl).2 1
      ⟨"Error", "HTTP 503: overloaded"⟩ (by rw [fail_ceil]; norm_num)
      (fun i hi => ⟨.str "a", by
        have : i = 0 := by omega
        subst this; exact fail_segment0⟩)
      (fun _ _ => ⟨9600000, rfl⟩)
      (Or.inr ⟨_, rfl, Or.inr ⟨overloaded, rfl, rfl⟩⟩)).2⟩

/-- C8: `getProvider` selects by fixed precedence. Whenever `GROQ_API_KEY` is
set and not empty it returns the Groq configuration with that key, whatever
`OPENAI_API_KEY` is; when `GROQ_API_KEY` is absent or empty and
`OPENAI_API_KEY` is set and not empty it returns the OpenAI configuration with
that key; and it fails if and only if both are absent or empty. -/
theorem getProvider_precedence (env : Env) :
    (∀ k, env.GROQ_API_KEY = some k → k ≠ "" →
      getProvider env = .ok
        { name := "Groq", apiKey := k,
          url := "https://api.groq.com/openai/v1/audio/transcriptions",
          model := "whisper-large-v3" }) ∧
    (∀ k, (env.GROQ_API_KEY = none ∨ env.GROQ_API_KEY = some "") →
      env.OPENAI_API_KEY = some k → k ≠ "" →
      getProvider env = .ok
        { name := "OpenAI", apiKey := k,
          url := "https://api.openai.com/v1/audio/transcriptions",
          model := "whisper-1" }) ∧
    ((∃ e, getProvider env = .error e) ↔
      (env.GROQ_API_KEY = none ∨ env.GROQ_API_KEY = some "") ∧
      (env.OPENAI_API_KEY = none ∨ env.OPENAI_API_KEY = some "")) ∧
    (∀ e, getProvider env = .error e → e = noApiKey) := by
  have htruthy : ∀ o : Option String, envTruthy o = false ↔ (o = none ∨ o = some "") := by
    intro o
    cases o with
    | none => simp [envTruthy]
    | some s => simp [envTruthy]
  refine ⟨?_, ?_, ?_, ?_⟩
  · intro k hk hne
    simp [getProvider, hk, envTruthy, hne]
  · intro k hg ho hne
    have hgf : envTruthy env.GROQ_API_KEY = false := (htruthy _).mpr hg
    unfold getProvider
    rw [hgf]
    simp [ho, envTruthy, hne]
  · rw [← htruthy, ← htruthy]
    unfold getProvider
    cases hg : envTruthy env.GROQ_API_KEY <;> cases ho : envTruthy env.OPENAI_API_KEY <;> simp
  · intro e he
    unfold getProvider at he
    cases hg : envTruthy env.GROQ_API_KEY <;> cases ho : envTruthy env.OPENAI_API_KEY <;>
      simp [hg, ho] at he
    exact he.symm

/-- C8, on the sample worlds: with both keys set the Groq configuration is
chosen, with an empty Groq key the OpenAI one, and with no key the call
fails. -/
theorem getProvider_precedence_witness :
    getProvider bothKeysEnv = .ok
      { name := "Groq", apiKey := "gsk_test",
        url := "https://api.groq.com/openai/v1/audio/transcriptions",
        model := "whisper-large-v3" } ∧
    getProvider openAiEnv = .ok
      { name := "OpenAI", apiKey := "sk_test",
        url := "https://api.openai.com/v1/audio/transcriptions",
        model := "whisper-1" } ∧
    ∃ e, getProvider noKeyEnv = .error e :=
  ⟨(getProvider_precedence bothKeysEnv).1 "gsk_test" rfl (by decide),
   (getProvider_precedence openAiEnv).2.1 "sk_test" (Or.inr rfl) rfl (by decide),
   (getProvider_precedence noKeyEnv).2.2.1.mpr ⟨Or.inl rfl, Or.inl rfl⟩⟩

/-! ## Lemmas on a world without a key -/

theorem getProvider_noKey (env : Env)
    (hg : env.GROQ_API_KEY = none ∨ env.GROQ_API_KEY = some "")
    (ho : env.OPENAI_API_KEY = none ∨ env.OPENAI_API_KEY = some "") :
    getProvider env = .error noApiKey := by
  unfold getProvider
  rcases hg with hg | hg <;> rcases ho with ho | ho <;> simp [hg, ho, envTruthy]

/-- Without a key a pass through the loop body requests the extraction and
then throws. -/
theorem chunkStep_noKey (env : Env) (audioPath : String) (i : Nat) (files : Files)
    (e : JsError) (hp : getProvider env = .error e) :
    (∃ e2, (chunkStep env audioPath i files).result = .error e2) ∧
    (chunkStep env audioPath i files).events =
      [.extract audioPath (chunkPath env audioPath i) ((i : ℚ) * chunkDuration) chunkDuration] := by
  unfold chunkStep extractAudioChunk
  cases env.ffmpeg audioPath (chunkPath env audioPath i) ((i : ℚ) * chunkDuration) chunkDuration <;>
    simp [Run.andThen, transcribeChunk_noKey _ _ _ _ hp]

/-- Without a key `transcribeLargeAudio` reads no file and sends no request. -/
theorem transcribeLargeAudio_noKey (env : Env) (files : Files) (audioPath : String)
    (e : JsError) (hp : getProvider env = .error e) :
    ∀ ev ∈ (transcribeLargeAudio env files audioPath).events, ev.isReadOrPost = false := by
  cases hprobe : env.ffprobe audioPath with
  | error e1 =>
    unfold transcribeLargeAudio getAudioDuration
    simp [Run.andThen, hprobe, Event.isReadOrPost]
  | ok d =>
    have hprobe2 : (getAudioDuration env files audioPath).result = .ok d := by
      simp [getAudioDuration, hprobe]
    have hfiles : (getAudioDuration env files audioPath).files = files := rfl
    have hevents : (getAudioDuration env files audioPath).events = [.probe audioPath] := rfl
    unfold transcribeLargeAudio
    rw [Run.andThen_ok _ hprobe2, hfiles, hevents]
    cases (numChunks d).toNat with
    | zero => simp [Run.andThen, chunkLoop, Run.pure, Event.isReadOrPost]
    | succ m =>
      obtain ⟨⟨e2, hr⟩, he⟩ := chunkStep_noKey env audioPath 0 files e hp
      have hloop : (chunkLoop env audioPath (m + 1) 0 [] files).result = .error e2 ∧
          (chunkLoop env audioPath (m + 1) 0 [] files).events =
            [.extract audioPath (chunkPath env audioPath 0) (((0 : ℕ) : ℚ) * chunkDuration)
              chunkDuration] := by
        simp only [chunkLoop]
        rw [Run.andThen_error _ hr]
        exact ⟨rfl, he⟩
      rw [Run.andThen_error _ hloop.1, hloop.2]
      simp [Event.isReadOrPost]

/-- C9 as stated fails: in the sample world without a key, `transcribeAudio`
on the large sample file stats the file, probes its duration and extracts
segment 0 before the no-key failure is raised, and the segment file stays on
disk. -/
theorem no_key_large_file_is_touched :
    getProvider noKeyEnv = .error noApiKey ∧
    (transcribeAudio noKeyEnv talkFiles "/tmp/talk.mp3").result = .error noApiKey ∧
    (transcribeAudio noKeyEnv talkFiles "/tmp/talk.mp3").events =
      [.stat "/tmp/talk.mp3", .probe "/tmp/talk.mp3",
       .extract "/tmp/talk.mp3" "/tmp/talk_chunk_0.mp3" 0 600] ∧
    talkFiles "/tmp/talk_chunk_0.mp3" = none ∧
    (transcribeAudio noKeyEnv talkFiles "/tmp/talk.mp3").files "/tmp/talk_chunk_0.mp3" =
      some 9600000 := by
  refine ⟨rfl, ?_, ?_, rfl, ?_⟩ <;> with_unfolding_all rfl

/-- C9, amended: when neither key is configured, `transcribeAudio` never reads
the contents of a file and never sends a request, for every input path. For a
file at or below the size threshold the size stat is the only action before the
no-key failure is raised and the file system is unchanged. For a file above the
threshold with a positive probed duration whose first extraction ends well, the
stat, the duration probe and the extraction of segment 0 run before the no-key
failure is raised, and the file of segment 0 is left on disk. -/
theorem no_key_never_reads_or_posts (env : Env) (files : Files) (audioPath : String)
    (hg : env.GROQ_API_KEY = none ∨ env.GROQ_API_KEY = some "")
    (ho : env.OPENAI_API_KEY = none ∨ env.OPENAI_API_KEY = some "") :
    (∀ ev ∈ (transcribeAudio env files audioPath).events, ev.isReadOrPost = false) ∧
    (∀ size, files audioPath = some size → size ≤ MAX_FILE_SIZE →
      (transcribeAudio env files audioPath).result = .error noApiKey ∧
      (transcribeAudio env files audioPath).events = [.stat audioPath] ∧
      (transcribeAudio env files audioPath).files = files) ∧
    (∀ size d, files audioPath = some size → MAX_FILE_SIZE < size →
      env.ffprobe audioPath = .ok d → 0 < d → ExtractOk env audioPath 0 →
      (transcribeAudio env files audioPath).result = .error noApiKey ∧
      (transcribeAudio env files audioPath).events =
        [.stat audioPath, .probe audioPath,
         .extract audioPath (chunkPath env audioPath 0) 0 600] ∧
      (transcribeAudio env files audioPath).files (chunkPath env audioPath 0) ≠ none) := by
  have hp := getProvider_noKey env hg ho
  have htc := transcribeChunk_noKey env files audioPath noApiKey hp
  refine ⟨?_, ?_, ?_⟩
  · cases hfile : files audioPath with
    | none =>
      simp [transcribeAudio, statSync, hfile, Run.andThen, Event.isReadOrPost]
    | some size =>
      by_cases hbig : MAX_FILE_SIZE < size
      · obtain ⟨_, h2, _⟩ := transcribeAudio_large env files audioPath size hfile hbig
        rw [h2]
        intro ev hev
        rcases List.mem_cons.mp hev with rfl | hev
        · rfl
        · exact transcribeLargeAudio_noKey env files audioPath noApiKey hp ev hev
      · obtain ⟨_, h2, _⟩ := transcribeAudio_small env files audioPath size hfile (by omega)
        rw [h2, htc]
        simp [Event.isReadOrPost]
  · intro size hfile hsmall
    obtain ⟨h1, h2, h3⟩ := transcribeAudio_small env files audioPath size hfile hsmall
    rw [h1, h2, h3, htc]
    exact ⟨rfl, rfl, rfl⟩
  · intro size d hfile hbig hprobe hd hex
    obtain ⟨h1, h2, h3⟩ := transcribeAudio_large env files audioPath size hfile hbig
    obtain ⟨sz, hsz⟩ := hex (((0 : ℕ) : ℚ) * chunkDuration) chunkDuration
    have hpos : 0 < numChunks d := Int.ceil_pos.mpr (div_pos hd (by norm_num [chunkDuration]))
    obtain ⟨m, hm⟩ : ∃ m, (numChunks d).toNat = m + 1 := ⟨(numChunks d).toNat - 1, by omega⟩
    have hstep : chunkStep env audioPath 0 files =
        ⟨.error noApiKey, files.write (chunkPath env audioPath 0) sz,
          [.extract audioPath (chunkPath env audioPath 0) (((0 : ℕ) : ℚ) * chunkDuration)
            chunkDuration]⟩ := by
      unfold chunkStep extractAudioChunk
      rw [hsz]
      simp [Run.andThen, transcribeChunk_noKey _ _ _ _ hp]
    have hlarge : transcribeLargeAudio env files audioPath =
        ⟨.error noApiKey, files.write (chunkPath env audioPath 0) sz,
          [.probe audioPath,
           .extract audioPath (chunkPath env audioPath 0) (((0 : ℕ) : ℚ) * chunkDuration)
            chunkDuration]⟩ := by
      have hprobe2 : (getAudioDuration env files audioPath).result = .ok d := by
        simp [getAudioDuration, hprobe]
      have hfiles : (getAudioDuration env files audioPath).files = files := rfl
      have hevents : (getAudioDuration env files audioPath).events = [.probe audioPath] := rfl
      unfold transcribeLargeAudio
      rw [Run.andThen_ok _ hprobe2, hfiles, hevents, hm]
      simp [Run.andThen, chunkLoop, hstep]
    rw [h1, h2, h3, hlarge]
    refine ⟨rfl, ?_, ?_⟩
    · simp [chunkDuration]
    · simp [Files.write]

/-- C9 amended, on the sample world without a key: a small file is only
stat-ed before the failure, and for the large sample file the extraction of
segment 0 has run. -/
theorem no_key_never_reads_or_posts_witness :
    (transcribeAudio noKeyEnv (singleFile "/tmp/talk.mp3" 1000) "/tmp/talk.mp3").events =
      [.stat "/tmp/talk.mp3"] ∧
    (transcribeAudio noKeyEnv talkFiles "/tmp/talk.mp3").result = .error noApiKey :=
  ⟨((no_key_never_reads_or_posts noKeyEnv (singleFile "/tmp/talk.mp3" 1000) "/tmp/talk.mp3"
      (Or.inl rfl) (Or.inl rfl)).2.1 1000 rfl (by decide)).2.1,
   ((no_key_never_reads_or_posts noKeyEnv talkFiles "/tmp/talk.mp3"
      (Or.inl rfl) (Or.inl rfl)).2.2 33600000 2100 rfl (by decide) rfl (by norm_num)
      (fun _ _ => ⟨9600000, rfl⟩)).1⟩

/-- With a key configured and the file present, the result of
`transcribeChunk` is that of `handleResponse` on the response received. -/
theorem transcribeChunk_response (env : Env) (files : Files) (audioPath : String)
    (p : Provider) (size : Nat) (resp : Response) (hp : getProvider env = .ok p)
    (hfile : files audioPath = some size)
    (hfetch : env.fetch p.url p.apiKey p.model audioPath = .ok resp) :
    (transcribeChunk env files audioPath).result = handleResponse resp := by
  rw [transcribeChunk_present env files audioPath p size hp hfile, hfetch]

/-- C10 as stated fails. A success response whose body is not valid JSON makes
`transcribeChunk` throw the parse error, and one whose JSON body is `null`
makes it throw a `TypeError`, so an error is raised. A failure response whose
JSON body is `null` makes it throw a `TypeError`, and so does one whose
`error.message` is an object with a member named `toString`: the message is
not of the form `HTTP <status>: <m>`. -/
theorem response_body_can_break_transcribeChunk :
    (∃ resp, htmlEnv.fetch "https://api.groq.com/openai/v1/audio/transcriptions" "gsk_test"
        "whisper-large-v3" "/tmp/talk.mp3" = .ok resp ∧ resp.ok = true) ∧
    (transcribeChunk htmlEnv (singleFile "/tmp/talk.mp3" 1000) "/tmp/talk.mp3").result =
      .error ⟨"SyntaxError", "Unexpected token < in JSON at position 0"⟩ ∧
    (∃ resp, nullOkEnv.fetch "https://api.groq.com/openai/v1/audio/transcriptions" "gsk_test"
        "whisper-large-v3" "/tmp/talk.mp3" = .ok resp ∧ resp.ok = true) ∧
    (transcribeChunk nullOkEnv (singleFile "/tmp/talk.mp3" 1000) "/tmp/talk.mp3").result =
      .error ⟨"TypeError", "Cannot read properties of null (reading \x27text\x27)"⟩ ∧
    (∃ resp, nullBodyEnv.fetch "https://api.groq.com/openai/v1/audio/transcriptions" "gsk_test"
        "whisper-large-v3" "/tmp/talk.mp3" = .ok resp ∧ resp.ok = false ∧
        resp.statusText = "Internal Server Error") ∧
    (transcribeChunk nullBodyEnv (singleFile "/tmp/talk.mp3" 1000) "/tmp/talk.mp3").result =
      .error ⟨"TypeError", "Cannot read properties of null (reading \x27error\x27)"⟩ ∧
    (transcribeChunk nullBodyEnv (singleFile "/tmp/talk.mp3" 1000) "/tmp/talk.mp3").result ≠
      .error ⟨"Error", "HTTP 500: Internal Server Error"⟩ ∧
    (∃ resp, oddMessageEnv.fetch "https://api.groq.com/openai/v1/audio/transcriptions"
        "gsk_test" "whisper-large-v3" "/tmp/talk.mp3" = .ok resp ∧ resp.ok = false) ∧
    (transcribeChunk oddMessageEnv (singleFile "/tmp/talk.mp3" 1000) "/tmp/talk.mp3").result =
      .error ⟨"TypeError", "Cannot convert object to primitive value"⟩ := by
  refine ⟨⟨_, rfl, rfl⟩, by with_unfolding_all rfl, ⟨_, rfl, rfl⟩, by with_unfolding_all rfl,
    ⟨_, rfl, rfl, rfl⟩, by with_unfolding_all rfl, ?_, ⟨_, rfl, rfl⟩, by with_unfolding_all rfl⟩
  have h : (transcribeChunk nullBodyEnv (singleFile "/tmp/talk.mp3" 1000) "/tmp/talk.mp3").result =
      .error ⟨"TypeError", "Cannot read properties of null (reading \x27error\x27)"⟩ := by
    with_unfolding_all rfl
  rw [h]
  intro hc
  injection hc with hc
  exact absurd hc (by decide)

/-- C10, amended: let `transcribeChunk` (key configured, file present) receive
the response `resp`. If `resp` is not a success and its body is not valid JSON,
the call fails with the message `HTTP <status>: <statusText>`. If `resp` is not
a success and its body is any JSON value other than `null`, with `msg` the
provider-supplied `error.message` of the body (undefined for a body that is not
an object and for an `error` member that is absent or not an object): when
`msg` is falsy the call fails with `HTTP <status>: <statusText>`; when `msg` is
truthy the call fails with `HTTP <status>: <m>`, `m` being `msg` converted to a
string (a non-empty string `msg` itself), unless that conversion throws, as it
does for an object with a member named `toString`, and then the call fails with
the error of the conversion. If `resp` is a success and its body is any JSON
value other than `null`, the call raises no error and returns the `text` member
of the body, which is undefined when the body has none. If `resp` is a success
and its body is not valid JSON, the call fails with the error of the parser. If
the body is the JSON value `null`, the call fails with a `TypeError`: that of
reading `error` when `resp` is not a success, that of reading `text` when it
is. -/
theorem transcribeChunk_http_outcome (env : Env) (files : Files) (audioPath : String)
    (p : Provider) (size : Nat) (resp : Response) (hp : getProvider env = .ok p)
    (hfile : files audioPath = some size)
    (hfetch : env.fetch p.url p.apiKey p.model audioPath = .ok resp) :
    (∀ e, resp.ok = false → resp.body = .error e →
      (transcribeChunk env files audioPath).result =
        .error ⟨"Error", "HTTP " ++ toString resp.status ++ ": " ++ resp.statusText⟩) ∧
    (∀ v, resp.ok = false → resp.body = .ok v → v ≠ .null → v ≠ .undefined →
      ((providerMessage v).truthy = false →
        (transcribeChunk env files audioPath).result =
          .error ⟨"Error", "HTTP " ++ toString resp.status ++ ": " ++ resp.statusText⟩) ∧
      (∀ m, (providerMessage v).truthy = true → (providerMessage v).toStr = .ok m →
        (transcribeChunk env files audioPath).result =
          .error ⟨"Error", "HTTP " ++ toString resp.status ++ ": " ++ m⟩) ∧
      (∀ m, providerMessage v = .str m → m ≠ "" →
        (transcribeChunk env files audioPath).result =
          .error ⟨"Error", "HTTP " ++ toString resp.status ++ ": " ++ m⟩) ∧
      (∀ e, (providerMessage v).truthy = true → (providerMessage v).toStr = .error e →
        (transcribeChunk env files audioPath).result = .error e)) ∧
    (∀ v, resp.ok = true → resp.body = .ok v → v ≠ .null → v ≠ .undefined →
      (transcribeChunk env files audioPath).result = .ok (bodyText v)) ∧
    (∀ e, resp.ok = true → resp.body = .error e →
      (transcribeChunk env files audioPath).result = .error e) ∧
    (resp.ok = false → resp.body = .ok .null →
      (transcribeChunk env files audioPath).result =
        .error ⟨"TypeError", "Cannot read properties of null (reading \x27error\x27)"⟩) ∧
    (resp.ok = true → resp.body = .ok .null →
      (transcribeChunk env files audioPath).result =
        .error ⟨"TypeError", "Cannot read properties of null (reading \x27text\x27)"⟩) := by
  rw [transcribeChunk_response env files audioPath p size resp hp hfile hfetch]
  have hmsg : ∀ v : JsVal, v ≠ JsVal.null → v ≠ JsVal.undefined →
      ∃ err : JsVal, v.getProp "error" = .ok err ∧
        err.getPropOpt "message" = .ok (providerMessage v) := by
    intro v h1 h2
    cases v with
    | undefined => exact absurd rfl h2
    | null => exact absurd rfl h1
    | str s => exact ⟨.undefined, rfl, rfl⟩
    | prim t shown => exact ⟨.undefined, rfl, rfl⟩
    | obj fields =>
      refine ⟨(fields.lookup "error").getD .undefined, rfl, ?_⟩
      cases hl : fields.lookup "error" with
      | none => simp [providerMessage, hl, JsVal.getPropOpt]
      | some err => cases err <;> simp [providerMessage, hl, JsVal.getPropOpt, JsVal.getProp]
  have hfail : ∀ v : JsVal, resp.ok = false → resp.body = .ok v → v ≠ JsVal.null →
      v ≠ JsVal.undefined →
      handleResponse resp =
        match ((providerMessage v).orElse (.str resp.statusText)).toStr with
        | .error e => .error e
        | .ok m => .error ⟨"Error", "HTTP " ++ toString resp.status ++ ": " ++ m⟩ := by
    intro v hok hbody h1 h2
    obtain ⟨err, herr, hm⟩ := hmsg v h1 h2
    simp only [handleResponse, hok, hbody, herr, hm]
    simp
  refine ⟨?_, ?_, ?_, ?_, ?_, ?_⟩
  · intro e hok hbody
    simp [handleResponse, hok, hbody, JsVal.getProp, JsVal.getPropOpt,
      JsVal.orElse, JsVal.truthy, JsVal.toStr]
  · intro v hok hbody h1 h2
    rw [hfail v hok hbody h1 h2]
    refine ⟨?_, ?_, ?_, ?_⟩
    · intro ht
      simp [JsVal.orElse, ht, JsVal.toStr]
    · intro m ht hs
      simp [JsVal.orElse, ht, hs]
    · intro m hm hne
      simp [JsVal.orElse, hm, JsVal.truthy, hne, JsVal.toStr]
    · intro e ht hs
      simp [JsVal.orElse, ht, hs]
  · intro v hok hbody h1 h2
    simp only [handleResponse, hok, hbody, if_true]
    cases v with
    | undefined => exact absurd rfl h2
    | null => exact absurd rfl h1
    | str s => rfl
    | prim t shown => rfl
    | obj fields => rfl
  · intro e hok hbody
    simp [handleResponse, hok, hbody]
  · intro hok hbody
    simp only [handleResponse, hok, hbody]
    rfl
  · intro hok hbody
    simp only [handleResponse, hok, hbody]
    rfl

/-- C10 amended, on the sample worlds: status 503 with the provider message
`overloaded` gives the error `HTTP 503: overloaded`, a success response gives
its text, status 429 with a body whose `error` member is the string `quota`
gives the error `HTTP 429: Too Many Requests`, and status 400 with the provider
message 42 gives the error `HTTP 400: 42`. -/
theorem transcribeChunk_http_outcome_witness :
    (transcribeChunk overloadedEnv (singleFile "/tmp/talk.mp3" 1000) "/tmp/talk.mp3").result =
      .error ⟨"Error", "HTTP 503: overloaded"⟩ ∧
    (transcribeChunk talkEnv (singleFile "/tmp/talk.mp3" 1000) "/tmp/talk.mp3").result =
      .ok (.str "d") ∧
    (transcribeChunk quotaEnv (singleFile "/tmp/talk.mp3" 1000) "/tmp/talk.mp3").result =
      .error ⟨"Error", "HTTP 429: Too Many Requests"⟩ ∧
    (transcribeChunk numberMessageEnv (singleFile "/tmp/talk.mp3" 1000) "/tmp/talk.mp3").result =
      .error ⟨"Error", "HTTP 400: 42"⟩ :=
  ⟨((transcribeChunk_http_outcome overloadedEnv (singleFile "/tmp/talk.mp3" 1000)
      "/tmp/talk.mp3" _ 1000 overloaded rfl rfl rfl).2.1 _ rfl rfl
      (by intro h; cases h) (by intro h; cases h)).2.2.1 "overloaded" rfl (by decide),
   (transcribeChunk_http_outcome talkEnv (singleFile "/tmp/talk.mp3" 1000)
      "/tmp/talk.mp3" _ 1000 (okResponse "d") rfl rfl rfl).2.2.1 _ rfl rfl
      (by intro h; cases h) (by intro h; cases h),
   ((transcribeChunk_http_outcome quotaEnv (singleFile "/tmp/talk.mp3" 1000)
      "/tmp/talk.mp3" _ 1000 _ rfl rfl rfl).2.1 _ rfl rfl
      (by intro h; cases h) (by intro h; cases h)).1 rfl,
   ((transcribeChunk_http_outcome numberMessageEnv (singleFile "/tmp/talk.mp3" 1000)
      "/tmp/talk.mp3" _ 1000 _ rfl rfl rfl).2.1 _ rfl rfl
      (by intro h; cases h) (by intro h; cases h)).2.1 "42" rfl rfl⟩

/-! ## Lemmas on `sanitizeFilename` -/

/-- What `underscoreRuns` puts out is an underscore or a code unit of the input
that is not white space. -/
theorem mem_underscoreRuns (c : Nat) :
    ∀ (l : List Nat) (inRun : Bool), c ∈ underscoreRuns inRun l →
      c = 95 ∨ (c ∈ l ∧ isSpaceUnit c = false) := by
  intro l
  induction l with
  | nil => intro inRun h; simp [underscoreRuns] at h
  | cons a l ih =>
    intro inRun h
    unfold underscoreRuns at h
    by_cases ha : isSpaceUnit a = true
    · rw [if_pos ha] at h
      cases inRun with
      | true =>
        simp only [if_true] at h
        rcases ih true h with h1 | ⟨h1, h2⟩
        · exact Or.inl h1
        · exact Or.inr ⟨List.mem_cons_of_mem _ h1, h2⟩
      | false =>
        simp only [Bool.false_eq_true, if_false, List.mem_cons] at h
        rcases h with h | h
        · exact Or.inl h
        · rcases ih true h with h1 | ⟨h1, h2⟩
          · exact Or.inl h1
          · exact Or.inr ⟨List.mem_cons_of_mem _ h1, h2⟩
    · rw [if_neg ha] at h
      rcases List.mem_cons.mp h with h | h
      · subst h
        exact Or.inr ⟨List.mem_cons_self _ _, by simpa using ha⟩
      · rcases ih false h with h1 | ⟨h1, h2⟩
        · exact Or.inl h1
        · exact Or.inr ⟨List.mem_cons_of_mem _ h1, h2⟩

/-- On a list without white space `underscoreRuns` changes nothing. -/
theorem underscoreRuns_of_no_space :
    ∀ (l : List Nat) (inRun : Bool), (∀ c ∈ l, isSpaceUnit c = false) →
      underscoreRuns inRun l = l := by
  intro l
  induction l with
  | nil => intro _ _; rfl
  | cons a l ih =>
    intro inRun h
    have ha : isSpaceUnit a = false := h a (List.mem_cons_self _ _)
    unfold underscoreRuns
    simp only [ha, Bool.false_eq_true, if_false]
    rw [ih false (fun c hc => h c (List.mem_cons_of_mem _ hc))]

/-- The output of `sanitizeFilename` holds no invalid character and no white
space. -/
theorem sanitizeFilename_clean (s : List Nat) (c : Nat) (hc : c ∈ sanitizeFilename s) :
    isInvalidUnit c = false ∧ isSpaceUnit c = false := by
  have h1 := List.mem_of_mem_take hc
  rcases mem_underscoreRuns c _ false h1 with h | ⟨h, hs⟩
  · subst h
    exact ⟨by decide, by decide⟩
  · have := (List.mem_filter.mp h).2
    exact ⟨by simpa using this, hs⟩

/-- C17: `sanitizeFilename` is bounded and idempotent. For every string `s`
(as a list of UTF-16 code units) the result has length at most 100, contains
none of the characters `<` `>` `:` `"` `/` `\` `|` `?` `*` (code units 60, 62,
58, 34, 47, 92, 124, 63, 42) and no white space, and sanitizing it again gives
the same result. -/
theorem sanitizeFilename_bounded_idempotent (s : List Nat) :
    (sanitizeFilename s).length ≤ 100 ∧
    (∀ c ∈ sanitizeFilename s, c ∉ [60, 62, 58, 34, 47, 92, 124, 63, 42]) ∧
    (∀ c ∈ sanitizeFilename s, isSpaceUnit c = false) ∧
    sanitizeFilename (sanitizeFilename s) = sanitizeFilename s := by
  have hlen : (sanitizeFilename s).length ≤ 100 := List.length_take_le _ _
  refine ⟨hlen, ?_, ?_, ?_⟩
  · intro c hc
    have := (sanitizeFilename_clean s c hc).1
    simpa [isInvalidUnit] using this
  · intro c hc
    exact (sanitizeFilename_clean s c hc).2
  · have hf : (sanitizeFilename s).filter (fun c => !isInvalidUnit c) = sanitizeFilename s := by
      rw [List.filter_eq_self]
      intro c hc
      simp [(sanitizeFilename_clean s c hc).1]
    have hu : underscoreRuns false (sanitizeFilename s) = sanitizeFilename s :=
      underscoreRuns_of_no_space _ false (fun c hc => (sanitizeFilename_clean s c hc).2)
    show (underscoreRuns false ((sanitizeFilename s).filter fun c => !isInvalidUnit c)).take 100
      = sanitizeFilename s
    rw [hf, hu]
    exact List.take_of_length_le hlen

/-- C11 as stated fails: for the title `My Video!` the sanitized part is
`My_Video!`, with the exclamation mark kept, not `My_Video`, and the file
written by `saveTranscription` in the sample host is named
`My_Video!_2026-11-04T23-51-37.txt`. -/
theorem sanitized_title_keeps_punctuation :
    sanitizeFilename (utf16 "My Video!") = utf16 "My_Video!" ∧
    sanitizeFilename (utf16 "My Video!") ≠ utf16 "My_Video" ∧
    (saveTranscription talkHost talkFiles (.str "hello world")
      (some (utf16 "My Video!"))).events =
      [.writeFile "/out/My_Video!_2026-11-04T23-51-37.txt"] := by
  refine ⟨by decide, by decide, ?_⟩
  with_unfolding_all rfl

/-- C11, amended: for every media title, when the transcription converts to a
string and the write succeeds, the file written by `saveTranscription` is named
by the sanitized title followed by `_`, the timestamp (at most 19 code units)
and `.txt`. The sanitized title is the title without the characters `<` `>`
`:` `"` `/` `\` `|` `?` `*`, with every run of white space replaced by one
underscore, cut to 100 code units: a title of at most 100 code units with none
of those characters and no white space is kept as it is, other punctuation
included, and for the title `My Video!` the sanitized part is exactly
`My_Video!`. -/
theorem saveTranscription_file_name (host : Host) (files : Files) (transcription : JsVal)
    (title : List Nat) (text : String) (size : Nat)
    (htext : transcription.toStr = .ok text)
    (hwrite : host.writeFile (host.transcriptionFile
      (sanitizeFilename title ++ utf16 "_" ++ fileTimestamp host.isoNow ++ utf16 ".txt")) =
        .ok size) :
    (saveTranscription host files transcription (some title)).result =
      .ok (host.transcriptionFile
        (sanitizeFilename title ++ utf16 "_" ++ fileTimestamp host.isoNow ++ utf16 ".txt")) ∧
    (saveTranscription host files transcription (some title)).events =
      [.writeFile (host.transcriptionFile
        (sanitizeFilename title ++ utf16 "_" ++ fileTimestamp host.isoNow ++ utf16 ".txt"))] ∧
    (fileTimestamp host.isoNow).length ≤ 19 ∧
    sanitizeFilename title =
      (underscoreRuns false (title.filter fun c => !isInvalidUnit c)).take 100 ∧
    (title.length ≤ 100 → (∀ c ∈ title, isInvalidUnit c = false ∧ isSpaceUnit c = false) →
      sanitizeFilename title = title) ∧
    sanitizeFilename (utf16 "My Video!") = utf16 "My_Video!" := by
  have hw : host.writeFile (host.transcriptionFile (transcriptionFileName host.isoNow title)) =
      .ok size := hwrite
  have key : saveTranscription host files transcription (some title) =
      ⟨.ok (host.transcriptionFile (transcriptionFileName host.isoNow title)),
        files.write (host.transcriptionFile (transcriptionFileName host.isoNow title)) size,
        [.writeFile (host.transcriptionFile (transcriptionFileName host.isoNow title))]⟩ := by
    unfold saveTranscription
    simp only [htext, hw]
  refine ⟨?_, ?_, List.length_take_le _ _, rfl, ?_, by decide⟩
  · rw [key]; rfl
  · rw [key]; rfl
  · intro hlen hclean
    have hf : title.filter (fun c => !isInvalidUnit c) = title := by
      rw [List.filter_eq_self]
      intro c hc
      simp [(hclean c hc).1]
    have hu : underscoreRuns false title = title :=
      underscoreRuns_of_no_space _ false (fun c hc => (hclean c hc).2)
    show (underscoreRuns false (title.filter fun c => !isInvalidUnit c)).take 100 = title
    rw [hf, hu]
    exact List.take_of_length_le hlen

/-- C11 amended, on the sample host: the transcript of the media titled
`My Video!` is written to the file `My_Video!_2026-11-04T23-51-37.txt`. -/
theorem saveTranscription_file_name_witness :
    (saveTranscription talkHost talkFiles (.str "hello world")
      (some (utf16 "My Video!"))).result =
      .ok (talkHost.transcriptionFile
        (sanitizeFilename (utf16 "My Video!") ++ utf16 "_" ++ fileTimestamp talkHost.isoNow ++
          utf16 ".txt")) :=
  (saveTranscription_file_name talkHost talkFiles (.str "hello world") (utf16 "My Video!")
    "hello world" 2048 rfl rfl).1

/-! ## Lemmas on `transcriber.js` -/

/-- A property of every action of two steps in sequence. -/
theorem Run.forall_events_andThen {α β : Type} {P : Event → Prop} (r : Run α)
    (k : α → Files → Run β) (hr : ∀ ev ∈ r.events, P ev)
    (hk : ∀ a files, ∀ ev ∈ (k a files).events, P ev) :
    ∀ ev ∈ (r.andThen k).events, P ev := by
  unfold Run.andThen
  cases r.result with
  | error e => exact hr
  | ok a =>
    intro ev hev
    rcases List.mem_append.mp hev with h | h
    · exact hr ev h
    · exact hk a r.files ev h

/-- The function `transcribeChunk` writes no file. -/
theorem transcribeChunk_no_write (env : Env) (files : Files) (cp : String) :
    ∀ ev ∈ (transcribeChunk env files cp).events, ev.isWrite = false := by
  unfold transcribeChunk
  cases hp : getProvider env with
  | error e => simp
  | ok p =>
    cases hfile : files cp <;> by_cases hd : env.DEBUG = some "true" <;>
      cases hf : env.fetch p.url p.apiKey p.model cp <;>
      simp [hd, hf, statSync, readFileSync, postAudio, hfile, Run.andThen, Run.map, Run.pure,
        Except.map, Event.isWrite]

/-- A pass through the loop body writes no file other than the segment file
that ffmpeg makes. -/
theorem chunkStep_no_write (env : Env) (audioPath : String) (i : Nat) (files : Files) :
    ∀ ev ∈ (chunkStep env audioPath i files).events, ev.isWrite = false := by
  unfold chunkStep
  apply Run.forall_events_andThen
  · unfold extractAudioChunk
    cases env.ffmpeg audioPath (chunkPath env audioPath i) ((i : ℚ) * chunkDuration)
      chunkDuration <;> simp [Event.isWrite]
  · intro _ files1
    apply Run.forall_events_andThen
    · exact transcribeChunk_no_write env files1 _
    · intro _ files2
      apply Run.forall_events_andThen
      · unfold unlinkSync
        cases files2 (chunkPath env audioPath i) <;>
          cases env.unlink (chunkPath env audioPath i) <;> simp [Event.isWrite]
      · intro _ _
        simp [Run.pure]

theorem chunkLoop_no_write (env : Env) (audioPath : String) :
    ∀ (n i : Nat) (acc : List JsVal) (files : Files),
      ∀ ev ∈ (chunkLoop env audioPath n i acc files).events, ev.isWrite = false := by
  intro n
  induction n with
  | zero => intro i acc files; simp [chunkLoop, Run.pure]
  | succ n ih =>
    intro i acc files
    simp only [chunkLoop]
    apply Run.forall_events_andThen
    · exact chunkStep_no_write env audioPath i files
    · intro text files1
      exact ih (i + 1) (acc ++ [text]) files1

/-- The function `transcribeAudio` never writes a transcript: its actions are
stats, probes, extractions, reads, uploads and unlinks. -/
theorem transcribeAudio_no_write (env : Env) (files : Files) (audioPath : String) :
    ∀ ev ∈ (transcribeAudio env files audioPath).events, ev.isWrite = false := by
  unfold transcribeAudio
  apply Run.forall_events_andThen
  · unfold statSync
    cases files audioPath <;> simp [Event.isWrite]
  · intro size files1
    by_cases hbig : size > MAX_FILE_SIZE
    · rw [if_pos hbig]
      show ∀ ev ∈ (transcribeLargeAudio env files1 audioPath).events, ev.isWrite = false
      unfold transcribeLargeAudio
      apply Run.forall_events_andThen
      · simp [getAudioDuration, Event.isWrite]
      · intro d files2
        apply Run.forall_events_andThen
        · exact chunkLoop_no_write env audioPath _ 0 [] files2
        · intro _ _
          simp
    · rw [if_neg hbig]
      exact transcribeChunk_no_write env files1 audioPath

/-- After the audio file is ready, a failing `transcribeAudio` ends a
pipeline of the shape shared by the three entry points. -/
theorem failing_transcription_ends_run {γ : Type} (prepare : Run Prepared)
    (env : Env) (prep : Prepared) (e : JsError) (k : Prepared → JsVal → Files → Run γ)
    (hprep : prepare.result = .ok prep)
    (hfail : (transcribeAudio env prepare.files prep.audioPath).result = .error e) :
    (prepare.andThen fun prep files =>
      (transcribeAudio env files prep.audioPath).andThen (k prep)).result = .error e ∧
    (prepare.andThen fun prep files =>
      (transcribeAudio env files prep.audioPath).andThen (k prep)).events =
        prepare.events ++ (transcribeAudio env prepare.files prep.audioPath).events ∧
    (prepare.andThen fun prep files =>
      (transcribeAudio env files prep.audioPath).andThen (k prep)).files =
        (transcribeAudio env prepare.files prep.audioPath).files := by
  rw [Run.andThen_ok _ hprep, Run.andThen_error _ hfail]
  exact ⟨rfl, rfl, rfl⟩

/-- C12: no partial-success transcript is persisted. In `transcribeYouTube`,
`transcribeDirectMedia` and `transcribeLocalFile`, once the audio file is ready,
if `transcribeAudio` fails with error `e` (on whatever segment) then the call
fails with that same error, its actions end with those of `transcribeAudio`
(`saveTranscription` is never called), none of these writes a file, and the
file system is the one `transcribeAudio` left. -/
theorem failed_transcription_saves_nothing (host : Host) (files : Files) (input : String)
    (prep : Prepared) (e : JsError) :
    ((host.youtubeAudio input files).result = .ok prep →
      (transcribeAudio host.env (host.youtubeAudio input files).files prep.audioPath).result =
        .error e →
      (transcribeYouTube host files input).result = .error e ∧
      (transcribeYouTube host files input).events = (host.youtubeAudio input files).events ++
        (transcribeAudio host.env (host.youtubeAudio input files).files prep.audioPath).events ∧
      (transcribeYouTube host files input).files =
        (transcribeAudio host.env (host.youtubeAudio input files).files prep.audioPath).files) ∧
    ((host.directAudio input files).result = .ok prep →
      (transcribeAudio host.env (host.directAudio input files).files prep.audioPath).result =
        .error e →
      (transcribeDirectMedia host files input).result = .error e ∧
      (transcribeDirectMedia host files input).events = (host.directAudio input files).events ++
        (transcribeAudio host.env (host.directAudio input files).files prep.audioPath).events ∧
      (transcribeDirectMedia host files input).files =
        (transcribeAudio host.env (host.directAudio input files).files prep.audioPath).files) ∧
    ((host.localAudio input files).result = .ok prep →
      (transcribeAudio host.env (host.localAudio input files).files prep.audioPath).result =
        .error e →
      (transcribeLocalFile host files input).result = .error e ∧
      (transcribeLocalFile host files input).events = (host.localAudio input files).events ++
        (transcribeAudio host.env (host.localAudio input files).files prep.audioPath).events ∧
      (transcribeLocalFile host files input).files =
        (transcribeAudio host.env (host.localAudio input files).files prep.audioPath).files) ∧
    (∀ fs path, ∀ ev ∈ (transcribeAudio host.env fs path).events, ev.isWrite = false) := by
  refine ⟨?_, ?_, ?_, fun fs path => transcribeAudio_no_write host.env fs path⟩
  · intro hprep hfail
    unfold transcribeYouTube
    exact failing_transcription_ends_run (host.youtubeAudio input files) host.env prep e _
      hprep hfail
  · intro hprep hfail
    unfold transcribeDirectMedia
    exact failing_transcription_ends_run (host.directAudio input files) host.env prep e _
      hprep hfail
  · intro hprep hfail
    unfold transcribeLocalFile
    exact failing_transcription_ends_run (host.localAudio input files) host.env prep e _
      hprep hfail

/-- C12, on the failing sample host: the second segment of the local file
fails transcription, the call fails with that error and writes nothing after
the copy of the audio file. -/
theorem failed_transcription_saves_nothing_witness :
    (transcribeLocalFile failHost homeFiles "/home/me/talk.mp3").result =
      .error ⟨"Error", "HTTP 503: overloaded"⟩ ∧
    (transcribeLocalFile failHost homeFiles "/home/me/talk.mp3").events =
      (failHost.localAudio "/home/me/talk.mp3" homeFiles).events ++
        (transcribeAudio failEnv (failHost.localAudio "/home/me/talk.mp3" homeFiles).files
          "/tmp/talk.mp3").events :=
  have h := (failed_transcription_saves_nothing failHost homeFiles "/home/me/talk.mp3"
    ⟨"/tmp/talk.mp3", some (utf16 "talk.mp3"), .null, none⟩
    ⟨"Error", "HTTP 503: overloaded"⟩).2.2.1 rfl (by with_unfolding_all rfl)
  ⟨h.1, h.2.1⟩

/-- With audio retention off the unlink of the audio file is attempted and the
step succeeds whatever the unlink does: the file is gone when the unlink did
not throw, and it stays when the unlink of the existing file threw. -/
theorem removeTempAudio_off (host : Host) (files : Files) (audioPath : String)
    (hkeep : host.KEEP_AUDIO ≠ some "true") :
    (removeTempAudio host files audioPath).result = .ok () ∧
    (removeTempAudio host files audioPath).events = [.unlink audioPath] ∧
    (host.env.unlink audioPath = none →
      (removeTempAudio host files audioPath).files audioPath = none) ∧
    (∀ e, host.env.unlink audioPath = some e →
      (removeTempAudio host files audioPath).files = files) := by
  unfold removeTempAudio
  rw [if_neg hkeep]
  unfold unlinkSync
  cases hfile : files audioPath with
  | none => exact ⟨rfl, rfl, fun _ => hfile, fun _ _ => rfl⟩
  | some size =>
    cases hun : host.env.unlink audioPath with
    | none =>
      refine ⟨rfl, rfl, fun _ => ?_, fun e he => ?_⟩
      · simp [Files.remove]
      · cases he
    | some e =>
      refine ⟨rfl, rfl, fun h => ?_, fun _ _ => rfl⟩
      cases h

/-- Unlinking files never brings a file back. -/
theorem unlinkAll_none (env : Env) (q : String) :
    ∀ (ps : List String) (files : Files), files q = none →
      (unlinkAll env ps files).files q = none := by
  intro ps
  induction ps with
  | nil => intro files h; exact h
  | cons p ps ih =>
    intro files h
    unfold unlinkAll unlinkSync
    cases hfile : files p with
    | none => simpa [Run.andThen] using h
    | some size =>
      cases hun : env.unlink p with
      | some e => simpa [Run.andThen] using h
      | none =>
        simp only [Run.andThen]
        apply ih
        simp [Files.remove, h]

/-- Unlinking files leaves every other file as it is. -/
theorem unlinkAll_other (env : Env) (q : String) :
    ∀ (ps : List String) (files : Files), q ∉ ps →
      (unlinkAll env ps files).files q = files q := by
  intro ps
  induction ps with
  | nil => intro files _; rfl
  | cons p ps ih =>
    intro files h
    have hq : q ≠ p := fun heq => h (by simp [heq])
    have hps : q ∉ ps := fun hmem => h (List.mem_cons_of_mem _ hmem)
    unfold unlinkAll unlinkSync
    cases hfile : files p with
    | none => simp [Run.andThen]
    | some size =>
      cases hun : env.unlink p with
      | some e => simp [Run.andThen]
      | none =>
        simp only [Run.andThen]
        rw [ih _ hps]
        simp [Files.remove, hq]

/-- C13 as stated fails: on the failing sample host, with audio retention off,
`transcribeLocalFile` fails and the temporary audio file `/tmp/talk.mp3` is
still on disk, no unlink of it having been attempted. -/
theorem failed_run_keeps_temp_audio :
    failHost.KEEP_AUDIO ≠ some "true" ∧
    (transcribeLocalFile failHost homeFiles "/home/me/talk.mp3").result =
      .error ⟨"Error", "HTTP 503: overloaded"⟩ ∧
    homeFiles "/tmp/talk.mp3" = none ∧
    (transcribeLocalFile failHost homeFiles "/home/me/talk.mp3").files "/tmp/talk.mp3" =
      some 33600000 ∧
    Event.unlink "/tmp/talk.mp3" ∉
      (transcribeLocalFile failHost homeFiles "/home/me/talk.mp3").events := by
  have hev : (transcribeLocalFile failHost homeFiles "/home/me/talk.mp3").events =
      [.stat "/home/me/talk.mp3", .writeFile "/tmp/talk.mp3", .stat "/tmp/talk.mp3",
       .probe "/tmp/talk.mp3",
       .extract "/tmp/talk.mp3" "/tmp/talk_chunk_0.mp3" 0 600,
       .readFile "/tmp/talk_chunk_0.mp3",
       .post "https://api.groq.com/openai/v1/audio/transcriptions" "gsk_test" "whisper-large-v3"
         "/tmp/talk_chunk_0.mp3",
       .unlink "/tmp/talk_chunk_0.mp3",
       .extract "/tmp/talk.mp3" "/tmp/talk_chunk_1.mp3" 600 600,
       .readFile "/tmp/talk_chunk_1.mp3",
       .post "https://api.groq.com/openai/v1/audio/transcriptions" "gsk_test" "whisper-large-v3"
         "/tmp/talk_chunk_1.mp3"] := by
    with_unfolding_all rfl
  refine ⟨by decide, by with_unfolding_all rfl, rfl, by with_unfolding_all rfl, ?_⟩
  rw [hev]
  simp

/-- C13, amended: with audio retention off (`KEEP_AUDIO` is not `true`),
`transcribeYouTube`, `transcribeDirectMedia` and `transcribeLocalFile` attempt
the deletion of the temporary audio file on the success path only. When the
transcription is returned and saved, the unlink is attempted and the call
succeeds whatever the unlink does: if the unlink does not throw, the audio file
is not on disk afterwards; if the unlink of the existing file throws, the
failure is swallowed and the file stays on disk. When `transcribeAudio` fails,
the call fails with that error and attempts no deletion of the audio file. -/
theorem audio_deleted_on_success_only (host : Host) (files : Files) (input : String)
    (hkeep : host.KEEP_AUDIO ≠ some "true") :
    UnlinksAudioOnSuccess host host.playerScripts (host.youtubeAudio input files)
      (transcribeYouTube host files input) ∧
    UnlinksAudioOnSuccess host [] (host.directAudio input files)
      (transcribeDirectMedia host files input) ∧
    UnlinksAudioOnSuccess host [] (host.localAudio input files)
      (transcribeLocalFile host files input) ∧
    LeavesAudioOnFailure host (host.youtubeAudio input files)
      (transcribeYouTube host files input) ∧
    LeavesAudioOnFailure host (host.directAudio input files)
      (transcribeDirectMedia host files input) ∧
    LeavesAudioOnFailure host (host.localAudio input files)
      (transcribeLocalFile host files input) := by
  have hkept : ∀ p, keptAudio host p = none := by
    intro p
    unfold keptAudio
    rw [if_neg (fun h => hkeep h.1)]
  refine ⟨?_, ?_, ?_, ?_, ?_, ?_⟩
  · intro prep text out hprep hta hsave
    obtain ⟨hr, he, hgone, hstay⟩ := removeTempAudio_off host
      (saveTranscription host (transcribeAudio host.env (host.youtubeAudio input files).files
        prep.audioPath).files text prep.title).files prep.audioPath hkeep
    have hc : (cleanupPlayerScripts host (removeTempAudio host
        (saveTranscription host (transcribeAudio host.env (host.youtubeAudio input files).files
          prep.audioPath).files text prep.title).files prep.audioPath).files).result = .ok () :=
      rfl
    unfold transcribeYouTube
    rw [Run.andThen_ok _ hprep, Run.andThen_ok _ hta, Run.andThen_ok _ hsave,
      Run.andThen_ok _ hr, Run.andThen_ok _ hc]
    refine ⟨⟨_, rfl, rfl, rfl, hkept _⟩, ?_, ?_, ?_⟩
    · simp [he]
    · intro hun
      simp only [Run.pure]
      exact unlinkAll_none _ _ _ _ (hgone hun)
    · intro e size hun hfile hnot
      simp only [Run.pure]
      show (unlinkAll host.env host.playerScripts _).files prep.audioPath = some size
      rw [unlinkAll_other _ _ _ _ hnot, hstay e hun]
      exact hfile
  · intro prep text out hprep hta hsave
    obtain ⟨hr, he, hgone, hstay⟩ := removeTempAudio_off host
      (saveTranscription host (transcribeAudio host.env (host.directAudio input files).files
        prep.audioPath).files text prep.title).files prep.audioPath hkeep
    unfold transcribeDirectMedia
    rw [Run.andThen_ok _ hprep, Run.andThen_ok _ hta, Run.andThen_ok _ hsave,
      Run.andThen_ok _ hr]
    refine ⟨⟨_, rfl, rfl, rfl, hkept _⟩, ?_, ?_, ?_⟩
    · simp [he]
    · intro hun
      simpa [Run.pure] using hgone hun
    · intro e size hun hfile _
      simp only [Run.pure]
      rw [hstay e hun]
      exact hfile
  · intro prep text out hprep hta hsave
    obtain ⟨hr, he, hgone, hstay⟩ := removeTempAudio_off host
      (saveTranscription host (transcribeAudio host.env (host.localAudio input files).files
        prep.audioPath).files text prep.title).files prep.audioPath hkeep
    unfold transcribeLocalFile
    rw [Run.andThen_ok _ hprep, Run.andThen_ok _ hta, Run.andThen_ok _ hsave,
      Run.andThen_ok _ hr]
    refine ⟨⟨_, rfl, rfl, rfl, hkept _⟩, ?_, ?_, ?_⟩
    · simp [he]
    · intro hun
      simpa [Run.pure] using hgone hun
    · intro e size hun hfile _
      simp only [Run.pure]
      rw [hstay e hun]
      exact hfile
  · intro prep e hprep hfail
    unfold transcribeYouTube
    exact failing_transcription_ends_run _ host.env prep e _ hprep hfail
  · intro prep e hprep hfail
    unfold transcribeDirectMedia
    exact failing_transcription_ends_run _ host.env prep e _ hprep hfail
  · intro prep e hprep hfail
    unfold transcribeLocalFile
    exact failing_transcription_ends_run _ host.env prep e _ hprep hfail

/-- C13 amended, on the sample hosts: after the successful run on the local
file the temporary audio file is gone; on the host whose unlink of the audio
file throws, the call still succeeds and the file stays on disk; and the
failing run ends with the error of the transcription. -/
theorem audio_deleted_on_success_only_witness :
    (transcribeLocalFile talkHost homeFiles "/home/me/talk.mp3").files "/tmp/talk.mp3" = none ∧
    ((∃ r, (transcribeLocalFile lockedHost homeFiles "/home/me/talk.mp3").result = .ok r ∧
        r.outputPath = "/out/transcript.txt" ∧ r.text = .str "a b c d" ∧ r.audioPath = none) ∧
      (transcribeLocalFile lockedHost homeFiles "/home/me/talk.mp3").files "/tmp/talk.mp3" =
        some 33600000) ∧
    (transcribeLocalFile failHost homeFiles "/home/me/talk.mp3").result =
      .error ⟨"Error", "HTTP 503: overloaded"⟩ :=
  ⟨((audio_deleted_on_success_only talkHost homeFiles "/home/me/talk.mp3" (by decide)).2.2.1
      ⟨"/tmp/talk.mp3", some (utf16 "talk.mp3"), .null, none⟩ (.str "a b c d")
      "/out/transcript.txt" rfl (by with_unfolding_all rfl) (by with_unfolding_all rfl)).2.2.1
      rfl,
   ⟨((audio_deleted_on_success_only lockedHost homeFiles "/home/me/talk.mp3"
        (by decide)).2.2.1
      ⟨"/tmp/talk.mp3", some (utf16 "talk.mp3"), .null, none⟩ (.str "a b c d")
      "/out/transcript.txt" rfl (by with_unfolding_all rfl) (by with_unfolding_all rfl)).1,
    ((audio_deleted_on_success_only lockedHost homeFiles "/home/me/talk.mp3"
        (by decide)).2.2.1
      ⟨"/tmp/talk.mp3", some (utf16 "talk.mp3"), .null, none⟩ (.str "a b c d")
      "/out/transcript.txt" rfl (by with_unfolding_all rfl) (by with_unfolding_all rfl)).2.2.2
      ⟨"Error", "EPERM: operation not permitted, unlink"⟩ 33600000 rfl
      (by with_unfolding_all rfl) (by simp)⟩,
   ((audio_deleted_on_success_only failHost homeFiles "/home/me/talk.mp3" (by decide)).2.2.2.2.2
      ⟨"/tmp/talk.mp3", some (utf16 "talk.mp3"), .null, none⟩
      ⟨"Error", "HTTP 503: overloaded"⟩ rfl (by with_unfolding_all rfl)).1⟩

/-- C14 as stated fails: in the sample world whose probe reports the duration
0, `transcribeAudio` on the large sample file returns the empty string without
any upload, although one transcription call on the original file would return
the text `d`. -/
theorem empty_plan_returns_empty_text :
    talkFiles "/tmp/talk.mp3" = some 33600000 ∧ MAX_FILE_SIZE < 33600000 ∧
    zeroEnv.ffprobe "/tmp/talk.mp3" = .ok 0 ∧
    (transcribeAudio zeroEnv talkFiles "/tmp/talk.mp3").result = .ok (.str "") ∧
    uploads (transcribeAudio zeroEnv talkFiles "/tmp/talk.mp3").events = [] ∧
    (transcribeChunk zeroEnv talkFiles "/tmp/talk.mp3").result = .ok (.str "d") := by
  refine ⟨rfl, by decide, rfl, ?_, ?_, ?_⟩ <;> with_unfolding_all rfl

/-- C14, amended: for a file above the size threshold whose probed total
duration is at most 0, the loop of `transcribeLargeAudio` runs no iteration and
`transcribeAudio` returns the empty string: after the size stat and the duration
probe it performs no extraction, makes no transcription call and changes no
file. -/
theorem nonpositive_duration_returns_empty (env : Env) (files : Files) (audioPath : String)
    (size : Nat) (d : ℚ) (hsize : files audioPath = some size) (hbig : MAX_FILE_SIZE < size)
    (hprobe : env.ffprobe audioPath = .ok d) (hd : d ≤ 0) :
    (transcribeAudio env files audioPath).result = .ok (.str "") ∧
    (transcribeAudio env files audioPath).events = [.stat audioPath, .probe audioPath] ∧
    (transcribeAudio env files audioPath).files = files := by
  have hn : (numChunks d).toNat = 0 := by
    have h0 : numChunks d ≤ 0 := by
      unfold numChunks chunkDuration
      rw [Int.ceil_le]
      have : d / 600 ≤ 0 := div_nonpos_of_nonpos_of_nonneg hd (by norm_num)
      simpa using this
    omega
  have hprobe2 : (getAudioDuration env files audioPath).result = .ok d := by
    simp [getAudioDuration, hprobe]
  have hfiles : (getAudioDuration env files audioPath).files = files := rfl
  have hevents : (getAudioDuration env files audioPath).events = [.probe audioPath] := rfl
  have hlarge : transcribeLargeAudio env files audioPath =
      ⟨.ok "", files, [.probe audioPath]⟩ := by
    unfold transcribeLargeAudio
    rw [Run.andThen_ok _ hprobe2, hfiles, hevents, hn]
    simp only [chunkLoop, Run.pure, Run.andThen, arrayJoin, joinPieces, List.append_nil]
    rfl
  obtain ⟨h1, h2, h3⟩ := transcribeAudio_large env files audioPath size hsize hbig
  rw [h1, h2, h3, hlarge]
  exact ⟨rfl, rfl, rfl⟩

/-- C14 amended, on the sample world with duration 0: the large sample file
gives the empty string. -/
theorem nonpositive_duration_returns_empty_witness :
    (transcribeAudio zeroEnv talkFiles "/tmp/talk.mp3").result = .ok (.str "") :=
  (nonpositive_duration_returns_empty zeroEnv talkFiles "/tmp/talk.mp3" 33600000 0 rfl
    (by decide) rfl (le_refl 0)).1

/-- C16 as stated fails: a fetch failing with the message `This private video
is not available`, which contains `private`, raises the unavailable-video hint
and not the private-video hint. -/
theorem private_message_can_get_other_hint :
    jsIncludes "This private video is not available" "private" = true ∧
    getVideoInfo (α := Unit)
      (fun _ => .error ⟨"Error", "This private video is not available", none⟩)
      "https://youtu.be/x" = .error unavailableHint ∧
    unavailableHint ≠ privateHint := by
  refine ⟨by decide, by rfl, by decide⟩

/-- C16, amended: when the media-info fetch in `getVideoInfo` fails with an
error whose message `m` is not empty, the patterns are tried in the order
`not available`, `age`, `private`. If `m` contains `not available` the raised
error is the unavailable-video hint; otherwise, if `m` contains `age` it is the
age-restriction hint; otherwise, if `m` contains `private` it is the
private-video hint; and if `m` contains none of the three the original error is
rethrown unchanged. -/
theorem getVideoInfo_hint_by_order {α : Type} (fetchInfo : String → Except ExecError α)
    (url : String) (error : ExecError) (hfail : fetchInfo url = .error error)
    (hm : error.message ≠ "") :
    (jsIncludes error.message "not available" = true →
      getVideoInfo fetchInfo url = .error unavailableHint) ∧
    (jsIncludes error.message "not available" = false →
      jsIncludes error.message "age" = true →
      getVideoInfo fetchInfo url = .error ageHint) ∧
    (jsIncludes error.message "not available" = false →
      jsIncludes error.message "age" = false →
      jsIncludes error.message "private" = true →
      getVideoInfo fetchInfo url = .error privateHint) ∧
    (jsIncludes error.message "not available" = false →
      jsIncludes error.message "age" = false →
      jsIncludes error.message "private" = false →
      getVideoInfo fetchInfo url = .error error) := by
  have hmsg : errorMsgOf error = error.message := by
    unfold errorMsgOf
    rw [if_pos hm]
  have hres : getVideoInfo fetchInfo url = .error (getVideoInfoCatch error) := by
    unfold getVideoInfo
    rw [hfail]
  rw [hres]
  unfold getVideoInfoCatch
  rw [hmsg]
  refine ⟨?_, ?_, ?_, ?_⟩
  · intro h1
    simp [h1]
  · intro h1 h2
    simp [h1, h2]
  · intro h1 h2 h3
    simp [h1, h2, h3]
  · intro h1 h2 h3
    simp [h1, h2, h3]

/-- C16 amended, on samples: the message `Video is private` raises the
private-video hint, and an unrelated message is rethrown unchanged. -/
theorem getVideoInfo_hint_by_order_witness :
    getVideoInfo (α := Unit) (fun _ => .error ⟨"Error", "Video is private", none⟩)
      "https://youtu.be/x" = .error privateHint ∧
    getVideoInfo (α := Unit) (fun _ => .error ⟨"Error", "Timed out", none⟩)
      "https://youtu.be/x" = .error ⟨"Error", "Timed out", none⟩ :=
  ⟨(getVideoInfo_hint_by_order (α := Unit)
      (fun _ => .error ⟨"Error", "Video is private", none⟩) "https://youtu.be/x"
      ⟨"Error", "Video is private", none⟩ rfl (by decide)).2.2.1
      (by decide) (by decide) (by decide),
   (getVideoInfo_hint_by_order (α := Unit)
      (fun _ => .error ⟨"Error", "Timed out", none⟩) "https://youtu.be/x"
      ⟨"Error", "Timed out", none⟩ rfl (by decide)).2.2.2
      (by decide) (by decide) (by decide)⟩

/-! ## Lemmas on the order of the segment actions -/

theorem digitChar_value (k : Nat) (hk : k < 10) : (Nat.digitChar k).toNat - 48 = k := by
  interval_cases k <;> rfl

/-- Reading the decimal digits produced for `n` gives `n` back. -/
theorem toDigitsCore_value :
    ∀ (fuel n : Nat) (ds : List Char), n < fuel →
      (Nat.toDigitsCore 10 fuel n ds).foldl (fun a c => a * 10 + (c.toNat - 48)) 0 =
        ds.foldl (fun a c => a * 10 + (c.toNat - 48)) n := by
  intro fuel
  induction fuel with
  | zero => intro n ds h; omega
  | succ fuel ih =>
    intro n ds h
    unfold Nat.toDigitsCore
    by_cases h0 : n / 10 = 0
    · simp only [h0, if_true]
      simp only [List.foldl_cons]
      rw [digitChar_value _ (Nat.mod_lt _ (by norm_num))]
      congr 1
      omega
    · simp only [h0, if_false]
      rw [ih (n / 10) _ (by omega)]
      simp only [List.foldl_cons]
      rw [digitChar_value _ (Nat.mod_lt _ (by norm_num))]
      congr 1
      omega

/-- Distinct numbers have distinct decimal renderings. -/
theorem toString_nat_injective (i j : Nat) (h : toString i = toString j) : i = j := by
  have hi := toDigitsCore_value (i + 1) i [] (by omega)
  have hj := toDigitsCore_value (j + 1) j [] (by omega)
  have hd : Nat.toDigits 10 i = Nat.toDigits 10 j := congrArg String.data h
  unfold Nat.toDigits at hd
  rw [hd] at hi
  rw [hi] at hj
  simpa using hj

/-- Distinct indices have distinct segment file names. -/
theorem chunkName_injective (base : String) (i j : Nat)
    (h : chunkName base i = chunkName base j) : i = j := by
  unfold chunkName at h
  have hd := congrArg String.data h
  simp only [String.data_append] at hd
  have h1 := List.append_cancel_right hd
  have h2 := List.append_cancel_left h1
  exact toString_nat_injective i j (String.ext h2)

theorem loopEvents_eq_flatMap (env : Env) (audioPath : String) :
    ∀ n i, loopEvents env audioPath n i =
      (List.range n).flatMap fun j => stepEvents env audioPath (i + j) := by
  intro n
  induction n with
  | zero => intro i; rfl
  | succ n ih =>
    intro i
    rw [List.range_succ_eq_map]
    simp only [loopEvents, List.flatMap_cons, List.flatMap_map, Nat.add_zero, ih]
    congr 1
    apply congrArg
    funext j
    simp [Nat.add_assoc, Nat.add_comm 1]

/-- Sequencing is associative. -/
theorem Run.andThen_assoc {α β γ : Type} (r : Run α) (k1 : α → Files → Run β)
    (k2 : β → Files → Run γ) :
    (r.andThen k1).andThen k2 = r.andThen fun a files => (k1 a files).andThen k2 := by
  unfold Run.andThen
  cases hr : r.result with
  | error e => rfl
  | ok a =>
    simp only []
    cases hk : (k1 a r.files).result with
    | error e => simp
    | ok b => simp [List.append_assoc]

/-- A run of `k + m` passes is a run of `k` passes followed, from the file
system and the texts it leaves, by a run of `m` passes. -/
theorem chunkLoop_split (env : Env) (audioPath : String) (m : Nat) :
    ∀ (k i : Nat) (acc : List JsVal) (files : Files),
      chunkLoop env audioPath (k + m) i acc files =
        (chunkLoop env audioPath k i acc files).andThen fun acc2 files2 =>
          chunkLoop env audioPath m (i + k) acc2 files2 := by
  intro k
  induction k with
  | zero =>
    intro i acc files
    simp [chunkLoop, Run.pure, Run.andThen]
  | succ k ih =>
    intro i acc files
    have e1 : k + 1 + m = (k + m) + 1 := by omega
    rw [e1]
    simp only [chunkLoop]
    rw [Run.andThen_assoc]
    congr 1
    funext text files1
    rw [ih (i + 1) (acc ++ [text]) files1]
    have e2 : i + 1 + k = i + (k + 1) := by omega
    rw [e2]

/-- The file system, stage by stage, in pass `k` of a loop whose passes up to
`k` succeed. -/
theorem pass_keeps_one_file (env : Env) (audioPath : String) (k : Nat) (files : Files)
    (hseg : ∀ i, i < k + 1 → ∃ v, SegmentOk env audioPath i v) :
    PassKeepsOneFile env audioPath files k := by
  obtain ⟨vs, hlen, hvs⟩ := exists_texts env audioPath k (fun i hi => hseg i (by omega))
  have hvs0 : ∀ j v, vs[j]? = some v → SegmentOk env audioPath (0 + j) v := by
    intro j v hj; rw [Nat.zero_add]; exact hvs j v hj
  obtain ⟨hr, _, hf⟩ := chunkLoop_ok env audioPath vs 0 [] files hvs0
  rw [hlen] at hr hf
  simp only [Nat.zero_add] at hf
  obtain ⟨v, hv⟩ := hseg k (by omega)
  obtain ⟨sr, _, sf⟩ := chunkStep_ok env audioPath k (passStart env audioPath files k) v hv
  obtain ⟨size, hsize⟩ := hv.1 ((k : ℚ) * chunkDuration) chunkDuration
  have hun : env.unlink (chunkPath env audioPath k) = none := hv.2.2
  have hE : passExtracted env audioPath files k =
      (passStart env audioPath files k).write (chunkPath env audioPath k) size := by
    unfold passExtracted extractAudioChunk
    rw [hsize]
  have hT : passTranscribed env audioPath files k = passExtracted env audioPath files k :=
    transcribeChunk_files env _ _
  have hU : passUnlinked env audioPath files k =
      (passStart env audioPath files k).remove (chunkPath env audioPath k) := by
    unfold passUnlinked
    rw [hT, hE]
    unfold unlinkSync
    simp only [Files.write, if_true, hun]
    funext q
    by_cases hq : q = chunkPath env audioPath k <;> simp [Files.remove, Files.write, hq]
  refine ⟨?_, ?_, ?_, ?_, hT, ?_, ?_, ?_, ?_⟩
  · intro j hj
    show (chunkLoop env audioPath k 0 [] files).files _ = none
    rw [hf, if_pos ⟨j, hj, rfl⟩]
  · intro q hq
    show (chunkLoop env audioPath k 0 [] files).files q = files q
    rw [hf, if_neg]
    rintro ⟨j, hj, rfl⟩
    exact hq j hj rfl
  · rw [hE]
    simp [Files.write]
  · intro q hq
    rw [hE]
    simp [Files.write, hq]
  · rw [hU]
    simp [Files.remove]
  · intro q hq
    rw [hU]
    simp [Files.remove, hq]
  · rw [sf, hU]
  · rw [hU, ← sf]
    show (chunkLoop env audioPath (k + 1) 0 [] files).files = _
    rw [chunkLoop_split env audioPath 1 k 0 [] files, Run.andThen_ok _ hr]
    simp only [chunkLoop, Nat.zero_add]
    have sr2 : (chunkStep env audioPath k (chunkLoop env audioPath k 0 [] files).files).result =
        .ok v := sr
    rw [Run.andThen_ok _ sr2]
    rfl

/-- When no segment file is on disk before the loop, the file of segment `k`
is the only segment file on disk in pass `k`. -/
theorem only_segment_on_disk (env : Env) (audioPath : String) (n k : Nat) (files : Files)
    (hfresh : ∀ j, j < n → files (chunkPath env audioPath j) = none)
    (h : PassKeepsOneFile env audioPath files k) :
    OnlySegmentOnDisk env audioPath files n k := by
  obtain ⟨h1, h2, h3, h4, h5, h6, h7, _, _⟩ := h
  have hF : ∀ j, j < n → passStart env audioPath files k (chunkPath env audioPath j) = none := by
    intro j hj
    by_cases hq : ∀ i, i < k → chunkPath env audioPath j ≠ chunkPath env audioPath i
    · rw [h2 _ hq]
      exact hfresh j hj
    · push_neg at hq
      obtain ⟨i, hi, hji⟩ := hq
      rw [hji]
      exact h1 i hi
  refine ⟨hF, h3, ?_, ?_, ?_⟩
  · rw [h5]
    exact h3
  · intro j hj hne
    rw [h5, h4 _ hne]
    exact ⟨hF j hj, hF j hj⟩
  · intro j hj
    by_cases hjk : chunkPath env audioPath j = chunkPath env audioPath k
    · rw [hjk]
      exact h6
    · rw [h7 _ hjk]
      exact hF j hj

/-- C15 as stated fails. In the world `flakyEnv` the call on the sample file
fails at the fourth segment and leaves the file of that segment on disk. A
second call, in the sample world and from the file system the first one left,
is a successful chunked transcription of four segments; in its first pass,
after the extraction, the file of the first segment and the file of the fourth
segment are both on disk: two segment files exist at that time. -/
theorem stale_segment_file_makes_two :
    (transcribeLargeAudio flakyEnv talkFiles "/tmp/talk.mp3").result =
      .error ⟨"Error", "HTTP 503: overloaded"⟩ ∧
    staleFiles "/tmp/talk_chunk_3.mp3" = some 9600000 ∧
    (∀ i, i < 4 → SegmentOk talkEnv "/tmp/talk.mp3" i (.str (talkText i))) ∧
    (transcribeLargeAudio talkEnv staleFiles "/tmp/talk.mp3").result = .ok "a b c d" ∧
    chunkPath talkEnv "/tmp/talk.mp3" 0 = "/tmp/talk_chunk_0.mp3" ∧
    chunkPath talkEnv "/tmp/talk.mp3" 3 = "/tmp/talk_chunk_3.mp3" ∧
    passStart talkEnv "/tmp/talk.mp3" staleFiles 0 = staleFiles ∧
    passExtracted talkEnv "/tmp/talk.mp3" staleFiles 0 "/tmp/talk_chunk_0.mp3" =
      some 9600000 ∧
    passExtracted talkEnv "/tmp/talk.mp3" staleFiles 0 "/tmp/talk_chunk_3.mp3" =
      some 9600000 ∧
    passTranscribed talkEnv "/tmp/talk.mp3" staleFiles 0 "/tmp/talk_chunk_0.mp3" =
      some 9600000 ∧
    passTranscribed talkEnv "/tmp/talk.mp3" staleFiles 0 "/tmp/talk_chunk_3.mp3" =
      some 9600000 := by
  refine ⟨by with_unfolding_all rfl, by with_unfolding_all rfl, talk_segments,
    by with_unfolding_all rfl, by decide, by decide, rfl, by with_unfolding_all rfl,
    by with_unfolding_all rfl, by with_unfolding_all rfl, by with_unfolding_all rfl⟩

/-- C15, amended: in a successful chunked transcription (key configured, probe
reporting `d`, every segment processed successfully), after the duration probe
the external actions are exactly, for the indices 0, 1, ... below
`ceil (d / 600)` in that order: the extraction of segment `i` into the file
`path.join(dir, base_chunk_i.mp3)`, the transcription of that file (in debug
mode a stat, then the read and the upload), and the unlink of that file.
Distinct indices have distinct file names (and distinct paths when `path.join`
keeps names apart). The loop is its first `k` passes, then pass `k`, then the
remaining passes. On the file system, pass `k` begins with the files of the
segments before `k` gone and every other path as it was before the loop; the
extraction puts the file of segment `k` on disk, the transcription leaves the
disk as it is, and the unlink removes that file, each stage changing no other
path, and pass `k + 1` begins there. So when no segment file is on disk before
the loop, in pass `k` no segment file is on disk before the extraction, the
file of segment `k` and no other from the extraction to the unlink, and none
after the unlink; no segment file is on disk when the call returns. -/
theorem segment_actions_in_order (env : Env) (files : Files) (audioPath : String) (d : ℚ)
    (p : Provider) (hprobe : env.ffprobe audioPath = .ok d) (hp : getProvider env = .ok p)
    (hseg : ∀ i, i < ⌈d / 600⌉.toNat → ∃ v, SegmentOk env audioPath i v) :
    (transcribeLargeAudio env files audioPath).events =
      .probe audioPath ::
        (List.range ⌈d / 600⌉.toNat).flatMap (fun i => stepEvents env audioPath i) ∧
    (∀ i, stepEvents env audioPath i =
      [.extract audioPath (chunkPath env audioPath i) ((i : ℚ) * 600) 600] ++
        (if env.DEBUG = some "true" then [.stat (chunkPath env audioPath i)] else []) ++
        [.readFile (chunkPath env audioPath i),
         .post p.url p.apiKey p.model (chunkPath env audioPath i),
         .unlink (chunkPath env audioPath i)]) ∧
    (∀ i, chunkPath env audioPath i =
      env.path.join (env.path.dirname audioPath)
        (chunkName (env.path.basename audioPath (env.path.extname audioPath)) i)) ∧
    (∀ base i j, chunkName base i = chunkName base j → i = j) ∧
    ((∀ a b, env.path.join (env.path.dirname audioPath) a =
        env.path.join (env.path.dirname audioPath) b → a = b) →
      ∀ i j, chunkPath env audioPath i = chunkPath env audioPath j → i = j) ∧
    (∀ k, k < ⌈d / 600⌉.toNat →
      chunkLoop env audioPath ⌈d / 600⌉.toNat 0 [] files =
        (chunkLoop env audioPath k 0 [] files).andThen fun texts files1 =>
          (chunkStep env audioPath k files1).andThen fun text files2 =>
            chunkLoop env audioPath (⌈d / 600⌉.toNat - (k + 1)) (k + 1) (texts ++ [text])
              files2) ∧
    (∀ k, k < ⌈d / 600⌉.toNat → PassKeepsOneFile env audioPath files k) ∧
    ((∀ j, j < ⌈d / 600⌉.toNat → files (chunkPath env audioPath j) = none) →
      ∀ k, k < ⌈d / 600⌉.toNat →
        OnlySegmentOnDisk env audioPath files ⌈d / 600⌉.toNat k) ∧
    (transcribeLargeAudio env files audioPath).files =
      passStart env audioPath files ⌈d / 600⌉.toNat ∧
    (∀ j, j < ⌈d / 600⌉.toNat →
      (transcribeLargeAudio env files audioPath).files (chunkPath env audioPath j) = none) := by
  have hn : ⌈d / 600⌉.toNat = (numChunks d).toNat := rfl
  obtain ⟨vs, hlen, hvs⟩ := exists_texts env audioPath _ hseg
  obtain ⟨_, he, hfl⟩ :=
    transcribeLargeAudio_ok env files audioPath d vs hprobe (hlen.trans hn) hvs
  have hvs0 : ∀ j v, vs[j]? = some v → SegmentOk env audioPath (0 + j) v := by
    intro j v hj; rw [Nat.zero_add]; exact hvs j v hj
  obtain ⟨hr, _, _⟩ := chunkLoop_ok env audioPath vs 0 [] files hvs0
  rw [hlen] at hr
  rw [he, ← hn]
  refine ⟨?_, ?_, fun _ => rfl, chunkName_injective, ?_, ?_, ?_, ?_, ?_, ?_⟩
  · rw [loopEvents_eq_flatMap]
    simp
  · intro i
    unfold stepEvents postEvents
    rw [hp]
    simp [chunkDuration]
  · intro hjoin i j hij
    exact chunkName_injective _ i j (hjoin _ _ hij)
  · intro k hk
    have hsplit := chunkLoop_split env audioPath (⌈d / 600⌉.toNat - (k + 1) + 1) k 0 [] files
    have e1 : k + (⌈d / 600⌉.toNat - (k + 1) + 1) = ⌈d / 600⌉.toNat := by omega
    rw [e1] at hsplit
    rw [hsplit]
    simp only [chunkLoop, Nat.zero_add]
  · intro k hk
    exact pass_keeps_one_file env audioPath k files (fun i hi => hseg i (by omega))
  · intro hfresh k hk
    exact only_segment_on_disk env audioPath _ k files hfresh
      (pass_keeps_one_file env audioPath k files (fun i hi => hseg i (by omega)))
  · unfold transcribeLargeAudio getAudioDuration passStart
    simp only [Run.andThen, hprobe]
    rw [← hn, hr]
  · intro j hj
    rw [hfl, if_pos ⟨j, by rw [← hn]; exact hj, rfl⟩]

/-- C15 amended, on the sample world: the four segments of the sample file are
processed one after the other; in the third pass no segment file is on disk
before the extraction, the file of the third segment and no other is on disk
from the extraction to the unlink, and none after the unlink. -/
theorem segment_actions_in_order_witness :
    (transcribeLargeAudio talkEnv talkFiles "/tmp/talk.mp3").events =
      .probe "/tmp/talk.mp3" ::
        (List.range ⌈(2100 : ℚ) / 600⌉.toNat).flatMap
          (fun i => stepEvents talkEnv "/tmp/talk.mp3" i) ∧
    PassKeepsOneFile talkEnv "/tmp/talk.mp3" talkFiles 2 ∧
    OnlySegmentOnDisk talkEnv "/tmp/talk.mp3" talkFiles ⌈(2100 : ℚ) / 600⌉.toNat 2 ∧
    passExtracted talkEnv "/tmp/talk.mp3" talkFiles 2 "/tmp/talk_chunk_2.mp3" ≠ none ∧
    passExtracted talkEnv "/tmp/talk.mp3" talkFiles 2 "/tmp/talk_chunk_1.mp3" = none ∧
    passUnlinked talkEnv "/tmp/talk.mp3" talkFiles 2 "/tmp/talk_chunk_2.mp3" = none :=
  have hfour : ⌈(2100 : ℚ) / 600⌉.toNat = 4 := by rw [talk_ceil]; rfl
  have h := segment_actions_in_order talkEnv talkFiles "/tmp/talk.mp3" 2100 _ rfl talk_provider
    (by rw [hfour]; exact fun i hi => ⟨_, talk_segments i hi⟩)
  have hk : 2 < ⌈(2100 : ℚ) / 600⌉.toNat := by rw [hfour]; decide
  have h1 : 1 < ⌈(2100 : ℚ) / 600⌉.toNat := by rw [hfour]; decide
  have hone := h.2.2.2.2.2.2.2.1
    (by
      rw [hfour]
      intro j hj
      interval_cases j <;> rfl)
    2 hk
  ⟨h.1, h.2.2.2.2.2.2.1 2 hk, hone, hone.2.1, (hone.2.2.2.1 1 h1 (by decide)).1,
    hone.2.2.2.2 2 hk⟩

end Scor
